import Mathlib

/-! The server of grpc-chat: its registry, interceptors and update loop.

A shallow embedding of `server/server.go` and `server/interceptor.go`.

* A buffered Go channel is the list of the items it holds, oldest first; a send on a channel
  that already holds `chanCap` items does not complete (`Result.blocked`).
* `GrpcBackend.onlineUsers` is `map[string]*User`.  The model keeps the `User` objects in
  allocation order, the position of an object being its pointer, and tags each object with the
  key under which the map holds it (`none` once `delete` has removed the key).  An object stays
  addressable after `delete`, as it does for the `GetUpdates` call that holds the pointer.
* `uuid.NewString()` and `timestamppb.Now()` are inputs of the call that uses them.
* Log statements are kept only where evaluating their arguments can fault.
-/

namespace GrpcChat

/-! ## Generated message types -/

namespace protos

/-- Modelled from the spec: the generated message `protos.User` (package `chat/protos` is not
among the sources), the public identity: token `Id` and display name `Username`, the two fields
the server reads and writes. -/
structure User where
  Id : String
  Username : String
deriving DecidableEq, Repr

/-- Modelled from the spec: the generated message `protos.DirectMessage`, with the fields the
server sets: sender token, body text, server timestamp. -/
structure DirectMessage where
  SenderId : String
  Message : String
  Time : Nat
deriving DecidableEq, Repr

/-- Modelled from the spec: the generated message `protos.UserStatusChange`, a presence event:
subject `Changed`, and `Add` true for Joined, false for Left. -/
structure UserStatusChange where
  Changed : User
  Add : Bool
deriving DecidableEq, Repr

/-- Modelled from the spec: the generated message `protos.ServerUpdate`, whose `Content` is
either `ServerUpdate_IncomingMessage` or `ServerUpdate_UserOnlineStatus`. -/
inductive ServerUpdate where
  | IncomingMessage (m : DirectMessage)
  | UserOnlineStatus (c : UserStatusChange)
deriving DecidableEq, Repr

/-- Modelled from the spec: the generated message `protos.RegisterRequest`. -/
structure RegisterRequest where
  Username : String
deriving DecidableEq, Repr

/-- Modelled from the spec: the generated message `protos.NewMessage`. -/
structure NewMessage where
  ReceiverId : String
  Message : String
deriving DecidableEq, Repr

/-- Modelled from the spec: the generated message `protos.UserList`. -/
structure UserList where
  Users : List User
deriving DecidableEq, Repr

/-- Modelled from the spec: the generated message `protos.Empty`. -/
structure Empty where
deriving DecidableEq, Repr

end protos

/-! ## Results, channels, contexts -/

/-- How a call ends, with the state it leaves: `ret` is a return with a nil error, `err` a
return with `errors.New msg`, `panic` a run-time fault (nil pointer dereference), `blocked` a
call suspended at a send on a full channel, which returns only once a receiver has taken an
item, and never while no stream is consuming. -/
inductive Result (σ ρ : Type) where
  | ret (resp : ρ) (s : σ)
  | err (msg : String) (s : σ)
  | panic (s : σ)
  | blocked (s : σ)
deriving DecidableEq, Repr

/-- The same outcome over a transformed state. -/
def Result.mapState {σ τ ρ : Type} (f : σ → τ) : Result σ ρ → Result τ ρ
  | Result.ret r s => Result.ret r (f s)
  | Result.err m s => Result.err m (f s)
  | Result.panic s => Result.panic (f s)
  | Result.blocked s => Result.blocked (f s)

/-- Capacity of both channels of a user: `make(chan ..., 100)`. -/
def chanCap : Nat := 100

/-- The send `ch <- x` on a buffered channel: `none` when the buffer is full. -/
def chanSend {α : Type} (ch : List α) (x : α) : Option (List α) :=
  if ch.length < chanCap then some (ch ++ [x]) else none

/-- A value stored in a `context.Context`: a string, or a value of another type (for which the
type assertion `.(string)` fails). -/
inductive CtxValue where
  | string (s : String)
  | other
deriving DecidableEq, Repr

/-- The type `metadata.MD`, that is `map[string][]string`. -/
abbrev MD := List (String × List String)

/-- The method `MD.Get`: the values under a key, nil when there are none.  (The library
lower-cases the key first; the server only asks for "client-id".) -/
def MD.Get (md : MD) (k : String) : List String :=
  (md.lookup k).getD []

/-- A `context.Context`: the incoming gRPC metadata, when there is any, and the values bound
with `context.WithValue`, the latest first. -/
structure Context where
  incoming : Option MD
  values : List (String × CtxValue)
deriving DecidableEq, Repr

/-- The function `metadata.FromIncomingContext`. -/
def metadata.FromIncomingContext (ctx : Context) : MD × Bool :=
  match ctx.incoming with
  | some md => (md, true)
  | none => ([], false)

/-- The function `context.WithValue`. -/
def Context.WithValue (ctx : Context) (key : String) (v : CtxValue) : Context :=
  { ctx with values := (key, v) :: ctx.values }

/-- The method `ctx.Value`. -/
def Context.Value (ctx : Context) (key : String) : Option CtxValue :=
  ctx.values.lookup key

/-- The function `getClientIdFromContext` (server.go 104-107). -/
def getClientIdFromContext (ctx : Context) : String × Bool :=
  match ctx.Value "client-id" with
  | some (CtxValue.string clientId) => (clientId, true)
  | _ => ("", false)

/-! ## The registry -/

/-- The struct `User` (server.go 12-16); a channel is the list of its buffered items. -/
structure User where
  proto : protos.User
  sendMessage : List protos.DirectMessage
  sendUserStatusUpdate : List protos.UserStatusChange
deriving DecidableEq, Repr

/-- A `User` object, and the key under which `onlineUsers` holds a pointer to it. -/
structure Entry where
  key : Option String
  user : User
deriving DecidableEq, Repr

/-- The struct `GrpcBackend` (server.go 18-20). -/
structure GrpcBackend where
  onlineUsers : List Entry
deriving DecidableEq, Repr

/-- The pointer `s.onlineUsers[k]`: the position of the object, `none` for nil. -/
def lookupPtr : List Entry → String → Option Nat
  | [], _ => none
  | e :: es, k => if e.key = some k then some 0 else (lookupPtr es k).map Nat.succ

/-- The map read `s.onlineUsers[k]`. -/
def GrpcBackend.get (s : GrpcBackend) (k : String) : Option Nat :=
  lookupPtr s.onlineUsers k

/-- Dereference of a `*User`. -/
def GrpcBackend.deref (s : GrpcBackend) (p : Nat) : Option User :=
  (s.onlineUsers[p]?).map Entry.user

/-- The built-in `delete(s.onlineUsers, k)`. -/
def GrpcBackend.delete (s : GrpcBackend) (k : String) : GrpcBackend :=
  { onlineUsers := s.onlineUsers.map
      (fun e => if e.key = some k then { e with key := none } else e) }

/-- The map write `s.onlineUsers[k] = user`, `user` a newly allocated object. -/
def GrpcBackend.insert (s : GrpcBackend) (k : String) (user : User) : GrpcBackend :=
  { onlineUsers := (s.delete k).onlineUsers ++ [{ key := some k, user := user }] }

/-- The objects a `range s.onlineUsers` visits. -/
def GrpcBackend.active (s : GrpcBackend) : List Entry :=
  s.onlineUsers.filter (fun e => e.key.isSome)

/-- The constructor `NewGrpcImplementation` (server.go 46-53). -/
def NewGrpcImplementation : GrpcBackend :=
  { onlineUsers := [] }

/-- The first loop of `Register` (server.go 56-60): is the name held by a user in the map. -/
def Register.taken (username : String) : List Entry → Bool
  | [] => false
  | e :: es =>
    if e.key.isSome then
      if e.user.proto.Username = username then true else Register.taken username es
    else Register.taken username es

/-- The user after the send `user.sendUserStatusUpdate <- update`; `none` when it blocks. -/
def User.notify (user : User) (update : protos.UserStatusChange) : Option User :=
  match chanSend user.sendUserStatusUpdate update with
  | some ch => some { user with sendUserStatusUpdate := ch }
  | none => none

/-- The second loop of `Register` (server.go 83-88): send `update` to every user in the map
whose `proto.Id` is not the subject's. -/
def Register.notify (update : protos.UserStatusChange) :
    List Entry → Result (List Entry) Unit
  | [] => Result.ret () []
  | e :: es =>
    if e.key.isSome then
      if e.user.proto.Id = update.Changed.Id then
        (Register.notify update es).mapState (fun es1 => e :: es1)
      else
        match e.user.notify update with
        | none => Result.blocked (e :: es)
        | some u => (Register.notify update es).mapState (fun es1 => { e with user := u } :: es1)
    else (Register.notify update es).mapState (fun es1 => e :: es1)

/-- The method `Register` (server.go 55-91); `newId` is what `uuid.NewString()` returns. -/
def GrpcBackend.Register (s : GrpcBackend) (request : protos.RegisterRequest) (newId : String) :
    Result GrpcBackend protos.User :=
  if Register.taken request.Username s.onlineUsers then
    Result.err "username is already taken" s
  else
    let user : User :=
      { proto := { Id := newId, Username := request.Username },
        sendMessage := [], sendUserStatusUpdate := [] }
    let s1 := s.insert user.proto.Id user
    let update : protos.UserStatusChange :=
      { Changed := { Id := user.proto.Id, Username := user.proto.Username }, Add := true }
    match Register.notify update s1.onlineUsers with
    | Result.ret _ es => Result.ret user.proto { onlineUsers := es }
    | Result.err m es => Result.err m { onlineUsers := es }
    | Result.panic es => Result.panic { onlineUsers := es }
    | Result.blocked es => Result.blocked { onlineUsers := es }

/-- The method `List` (server.go 93-102). -/
protected def GrpcBackend.List (s : GrpcBackend) : protos.UserList :=
  { Users := s.active.map (fun e => e.user.proto) }

/-- The loop of `Deregister` (server.go 31-39): send the event to every user in the map. -/
def Deregister.notify (update : protos.UserStatusChange) :
    List Entry → Result (List Entry) Unit
  | [] => Result.ret () []
  | e :: es =>
    if e.key.isSome then
      match e.user.notify update with
      | none => Result.blocked (e :: es)
      | some u => (Deregister.notify update es).mapState (fun es1 => { e with user := u } :: es1)
    else (Deregister.notify update es).mapState (fun es1 => e :: es1)

/-- The method `Deregister` (server.go 22-44). -/
def GrpcBackend.Deregister (s : GrpcBackend) (ctx : Context) : Result GrpcBackend protos.Empty :=
  match getClientIdFromContext ctx with
  | (_, false) => Result.err "user not found" s
  | (clientId, true) =>
    -- line 28 reads s.onlineUsers[clientId].proto.Username
    match (s.get clientId).bind s.deref with
    | none => Result.panic s
    | some userToDelete =>
      let update : protos.UserStatusChange :=
        { Changed := { Id := userToDelete.proto.Id, Username := userToDelete.proto.Username },
          Add := false }
      match Deregister.notify update s.onlineUsers with
      | Result.ret _ es => Result.ret {} (GrpcBackend.delete { onlineUsers := es } clientId)
      | Result.err m es => Result.err m { onlineUsers := es }
      | Result.panic es => Result.panic { onlineUsers := es }
      | Result.blocked es => Result.blocked { onlineUsers := es }

/-- The method `SendDirectMessage` (server.go 109-133); `now` is what `timestamppb.Now()`
returns. -/
def GrpcBackend.SendDirectMessage (s : GrpcBackend) (ctx : Context) (request : protos.NewMessage)
    (now : Nat) : Result GrpcBackend protos.DirectMessage :=
  let sender := (getClientIdFromContext ctx).1
  let receiver := request.ReceiverId
  match s.get receiver with
  | none => Result.err "receiver not found" s
  | some messageReceiver =>
    let message := request.Message
    -- line 122 reads s.onlineUsers[sender].proto.Username
    match (s.get sender).bind s.deref with
    | none => Result.panic s
    | some _ =>
      let newMessage : protos.DirectMessage :=
        { SenderId := sender, Message := message, Time := now }
      match s.onlineUsers[messageReceiver]? with
      | none => Result.panic s
      | some e =>
        -- line 131: messageReceiver.sendMessage <- newMessage
        match chanSend e.user.sendMessage newMessage with
        | none => Result.blocked s
        | some ch =>
          Result.ret newMessage
            { onlineUsers :=
                s.onlineUsers.set messageReceiver
                  { e with user := { e.user with sendMessage := ch } } }

/-! ## The interceptors -/

/-- The method `validateRequestMetadata` (interceptor.go 11-23): the pair `(newCtx, err)`, with
`none` for a nil context and for a nil error. -/
def GrpcBackend.validateRequestMetadata (s : GrpcBackend) (ctx : Context) :
    Option Context × Option String :=
  match metadata.FromIncomingContext ctx with
  | (md, true) =>
    match md.Get "client-id" with
    | clientId0 :: _ =>
      if (s.get clientId0).isSome then
        (some (ctx.WithValue "client-id" (CtxValue.string clientId0)), none)
      else (none, some "verification failed")
    | [] => (none, some "verification failed")
  | (_, false) => (none, some "verification failed")

/-- The struct `grpc.UnaryServerInfo`, of which the interceptor reads `FullMethod`. -/
structure grpc.UnaryServerInfo where
  FullMethod : String
deriving DecidableEq, Repr

/-- The method `UnaryServerInterceptor` (interceptor.go 25-40).  The handler acts on a state
`w` of any type.  The log statement of line 35 calls `newCtx.Value`, which faults on the nil
context that a failed validation returns. -/
def GrpcBackend.UnaryServerInterceptor {σ α ρ : Type} (s : GrpcBackend) (ctx : Context)
    (req : α) (info : grpc.UnaryServerInfo) (handler : Context → α → σ → Result σ ρ) (w : σ) :
    Result σ ρ :=
  if info.FullMethod = "/RegisterUser/Register" then handler ctx req w
  else
    match s.validateRequestMetadata ctx with
    | (none, _) => Result.panic w
    | (some _, some e) => Result.err e w
    | (some newCtx, none) => handler newCtx req w

/-- The interface `grpc.ServerStream`: its context, the updates delivered to the peer so far
(oldest first), and whether the transport has failed. -/
structure grpc.ServerStream where
  ctx : Context
  sent : List protos.ServerUpdate
  broken : Bool
deriving DecidableEq, Repr

/-- The method `Context` of the stream. -/
def grpc.ServerStream.Context (ss : grpc.ServerStream) : Context :=
  ss.ctx

/-- The method `Send` of the stream: delivers the update, or returns an error on a failed
transport. -/
def grpc.ServerStream.Send (ss : grpc.ServerStream) (u : protos.ServerUpdate) :
    grpc.ServerStream × Option String :=
  if ss.broken then (ss, some "transport is closing")
  else ({ ss with sent := ss.sent ++ [u] }, none)

/-- The struct `customServerStream` (interceptor.go 42-46). -/
structure customServerStream where
  ServerStream : grpc.ServerStream
  ctx : Context
  md : MD
deriving DecidableEq, Repr

/-- The method `customServerStream.Context` (interceptor.go 48-50). -/
def customServerStream.Context (css : customServerStream) : Context :=
  css.ctx

/-- The method `Send` that `customServerStream` takes from the embedded stream. -/
def customServerStream.Send (css : customServerStream) (u : protos.ServerUpdate) :
    customServerStream × Option String :=
  ({ css with ServerStream := (css.ServerStream.Send u).1 }, (css.ServerStream.Send u).2)

/-- The method `StreamServerInterceptor` (interceptor.go 60-79). -/
def GrpcBackend.StreamServerInterceptor {σ α : Type} (s : GrpcBackend) (srv : α)
    (ss : grpc.ServerStream) (handler : α → customServerStream → σ → Result σ Unit) (w : σ) :
    Result σ Unit :=
  match s.validateRequestMetadata ss.Context with
  | (_, some e) => Result.err e w
  | (none, none) => Result.panic w
  | (some newCtx, none) =>
    let md := (metadata.FromIncomingContext ss.Context).1
    handler srv { ServerStream := ss, ctx := newCtx, md := md } w

/-! ## The update loop -/

/-- The case of the `select` of `GetUpdates` that is taken when both channels are ready. -/
inductive SelectCase where
  | sendMessage
  | sendUserStatusUpdate
deriving DecidableEq, Repr

/-- The `select` of `GetUpdates` (server.go 146-158): the item received and the user after the
receive; `none` while both channels are empty.  A case whose channel is empty is not taken. -/
def GetUpdates.select (user : User) (pick : SelectCase) :
    Option ((protos.DirectMessage ⊕ protos.UserStatusChange) × User) :=
  match user.sendMessage, user.sendUserStatusUpdate, pick with
  | [], [], _ => none
  | message :: ms, [], _ => some (Sum.inl message, { user with sendMessage := ms })
  | [], change :: cs, _ => some (Sum.inr change, { user with sendUserStatusUpdate := cs })
  | message :: ms, _ :: _, SelectCase.sendMessage =>
    some (Sum.inl message, { user with sendMessage := ms })
  | _ :: _, change :: cs, SelectCase.sendUserStatusUpdate =>
    some (Sum.inr change, { user with sendUserStatusUpdate := cs })

/-- How one iteration of the loop of `GetUpdates` ends: `returned err` when `GetUpdates`
returns, `next` when the loop goes on to its next iteration, `waiting` when the `select` finds
both channels empty, `panic` on a fault. -/
inductive Iteration (σ : Type) where
  | returned (err : Option String) (s : σ)
  | next (s : σ)
  | waiting (s : σ)
  | panic (s : σ)
deriving DecidableEq, Repr

/-- One iteration of the loop of `GetUpdates` (server.go 144-161) for the pointer `user`. -/
def GetUpdates.iteration (clientId : String) (user : Option Nat) (pick : SelectCase)
    (s : GrpcBackend) (server : customServerStream) :
    Iteration (GrpcBackend × customServerStream) :=
  match user with
  | none => Iteration.panic (s, server)
  | some p =>
    match s.onlineUsers[p]? with
    | none => Iteration.panic (s, server)
    | some e =>
      match GetUpdates.select e.user pick with
      | none => Iteration.waiting (s, server)
      | some (Sum.inl message, u) =>
        let serverUpdate := protos.ServerUpdate.IncomingMessage message
        Iteration.next
          ({ onlineUsers := s.onlineUsers.set p { e with user := u } },
            (server.Send serverUpdate).1)
      | some (Sum.inr changeUserList, u) =>
        let serverUpdate := protos.ServerUpdate.UserOnlineStatus changeUserList
        if changeUserList.Changed.Id = clientId then
          Iteration.returned none
            ({ onlineUsers := s.onlineUsers.set p { e with user := u } }, server)
        else
          Iteration.next
            ({ onlineUsers := s.onlineUsers.set p { e with user := u } },
              (server.Send serverUpdate).1)

/-- The loop of `GetUpdates` run for the iterations of a schedule `picks`, while no other call
touches the state; `next` when the schedule ends with the loop still running. -/
def GetUpdates.loop (clientId : String) (user : Option Nat) :
    List SelectCase → GrpcBackend → customServerStream →
      Iteration (GrpcBackend × customServerStream)
  | [], s, server => Iteration.next (s, server)
  | pick :: picks, s, server =>
    match GetUpdates.iteration clientId user pick s server with
    | Iteration.next (s1, server1) => GetUpdates.loop clientId user picks s1 server1
    | r => r

/-- The method `GetUpdates` (server.go 135-162), its loop run over a schedule. -/
def GrpcBackend.GetUpdates (s : GrpcBackend) (server : customServerStream)
    (picks : List SelectCase) : Iteration (GrpcBackend × customServerStream) :=
  match getClientIdFromContext server.Context with
  | (_, false) => Iteration.returned (some "client id not provided") (s, server)
  | (clientId, true) => GetUpdates.loop clientId (s.get clientId) picks s server

/-! ## Vocabulary of the statements -/

/-- The user with `update` appended at the tail of its presence channel. -/
def User.pushStatus (user : User) (update : protos.UserStatusChange) : User :=
  { user with sendUserStatusUpdate := user.sendUserStatusUpdate ++ [update] }

/-- An object after a broadcast of `update` to every user in the map: an object the map points
to has `update` appended to its presence channel, any other object is as it was. -/
def Entry.notified (update : protos.UserStatusChange) (e : Entry) : Entry :=
  if e.key.isSome then { e with user := e.user.pushStatus update } else e

/-- An object after a broadcast of `update` that skips the users whose `proto.Id` is the
subject's. -/
def Entry.notifiedOthers (update : protos.UserStatusChange) (e : Entry) : Entry :=
  if e.user.proto.Id = update.Changed.Id then e else e.notified update

/-- Every entry of the map is keyed by the token in its own `proto.Id`, as line 71 of
server.go, the only write to the map, makes it. -/
def GrpcBackend.WellKeyed (s : GrpcBackend) : Prop :=
  ∀ e ∈ s.onlineUsers, e.key.isSome = true → e.key = some e.user.proto.Id

instance (s : GrpcBackend) : Decidable s.WellKeyed := by
  unfold GrpcBackend.WellKeyed
  infer_instance

/-- No presence channel of a user in the map is full. -/
def GrpcBackend.HasRoom (s : GrpcBackend) : Prop :=
  ∀ e ∈ s.active, e.user.sendUserStatusUpdate.length < chanCap

instance (s : GrpcBackend) : Decidable s.HasRoom := by
  unfold GrpcBackend.HasRoom
  infer_instance

/-- The Joined event about an identity. -/
def joinedEvent (id username : String) : protos.UserStatusChange :=
  { Changed := { Id := id, Username := username }, Add := true }

/-- The Left event about an identity. -/
def leftEvent (id username : String) : protos.UserStatusChange :=
  { Changed := { Id := id, Username := username }, Add := false }

/-- The object `Register` allocates. -/
def newUser (id username : String) : User :=
  { proto := { Id := id, Username := username }, sendMessage := [], sendUserStatusUpdate := [] }

/-- The state a call leaves. -/
def Result.state {σ ρ : Type} : Result σ ρ → σ
  | Result.ret _ s => s
  | Result.err _ s => s
  | Result.panic s => s
  | Result.blocked s => s

/-- A sequence of `Register` calls, one after the other with no other call in between, each
with its request and the token `uuid.NewString()` gives it; the sequence stops at the first
call that does not return an identity. -/
def RegisterAll : GrpcBackend → List (protos.RegisterRequest × String) →
    Result GrpcBackend (List protos.User)
  | s, [] => Result.ret [] s
  | s, (request, newId) :: calls =>
    match s.Register request newId with
    | Result.ret user s1 =>
      match RegisterAll s1 calls with
      | Result.ret users s2 => Result.ret (user :: users) s2
      | r => r
    | Result.err m s1 => Result.err m s1
    | Result.panic s1 => Result.panic s1
    | Result.blocked s1 => Result.blocked s1

/-- The objects of the registry after the calls of a sequence have all returned, from the
empty registry and with no receive in between: each user holds the Joined events of the users
registered after it. -/
def registered : List (protos.RegisterRequest × String) → List Entry
  | [] => []
  | (request, newId) :: calls =>
    { key := some newId,
      user := { proto := { Id := newId, Username := request.Username },
                sendMessage := [],
                sendUserStatusUpdate :=
                  calls.map (fun c => joinedEvent c.2 c.1.Username) } } :: registered calls

/-! ## Example inputs -/

/-- The calls of `n` users, user `i` asking for the name `user<i>` and given the token
`token<i>`. -/
def manyCalls (n : Nat) : List (protos.RegisterRequest × String) :=
  (List.range n).map (fun i => ({ Username := "user" ++ toString i }, "token" ++ toString i))

/-- The registry after alice, given the token `A`, and then bob, given the token `B`, have
registered. -/
def twoUsers : GrpcBackend :=
  (RegisterAll NewGrpcImplementation
    [({ Username := "alice" }, "A"), ({ Username := "bob" }, "B")]).state

/-- The call scope that `validateRequestMetadata` binds for the token `t`. -/
def scopeOf (t : String) : Context :=
  { incoming := some [("client-id", [t])], values := [("client-id", CtxValue.string t)] }

/-- An incoming context whose metadata carries the client id `t`. -/
def incomingOf (t : String) : Context :=
  { incoming := some [("client-id", [t])], values := [] }

/-- An incoming context without metadata. -/
def noMetadata : Context :=
  { incoming := none, values := [] }

/-- The state after `n` calls of `SendDirectMessage` with the same scope and request, one after
the other with no receive in between. -/
def sendRepeatedly (ctx : Context) (request : protos.NewMessage) (now : Nat) :
    Nat → GrpcBackend → GrpcBackend
  | 0, s => s
  | n + 1, s => sendRepeatedly ctx request now n (s.SendDirectMessage ctx request now).state

/-- The registry of `twoUsers` after bob has sent alice `chanCap` messages that no stream has
received. -/
def fullInbox : GrpcBackend :=
  sendRepeatedly (scopeOf "B") { ReceiverId := "A", Message := "hi alice" } 0 chanCap twoUsers

/-- A handler that counts its invocations. -/
def countingHandler : Context → Unit → Nat → Result Nat Unit :=
  fun _ _ w => Result.ret () (w + 1)

/-- A stream handler that counts its invocations. -/
def countingStreamHandler : Unit → customServerStream → Nat → Result Nat Unit :=
  fun _ _ w => Result.ret () (w + 1)

/-- A stream of the client with token `t`, nothing sent yet. -/
def streamOf (t : String) : customServerStream :=
  { ServerStream := { ctx := incomingOf t, sent := [], broken := false },
    ctx := scopeOf t, md := [("client-id", [t])] }

/-- The registry of `twoUsers` after alice has deregistered: her object, at position 0, holds
the Joined event about bob and the Left event about herself. -/
def aliceLeft : GrpcBackend :=
  (twoUsers.Deregister (scopeOf "A")).state

/-- The registry in which alice registered alone and has deregistered: her object, at position
0, holds the Left event about herself. -/
def aliceAlone : GrpcBackend :=
  (GrpcBackend.Deregister
    (NewGrpcImplementation.Register { Username := "alice" } "A").state (scopeOf "A")).state

/-- The registry after the 101 users of `manyCalls 101` have registered and no stream has
received: the presence channel of `user0` holds the 100 Joined events of the others. -/
def crowded : GrpcBackend :=
  { onlineUsers := registered (manyCalls 101) }

/-! ## Vocabulary of the statements on the update loop -/

/-- The message that an update carries, when it carries one (the generated getter
`GetIncomingMessage`). -/
def protos.ServerUpdate.GetIncomingMessage : protos.ServerUpdate → Option protos.DirectMessage
  | protos.ServerUpdate.IncomingMessage m => some m
  | protos.ServerUpdate.UserOnlineStatus _ => none

/-- The presence event that an update carries, when it carries one (the generated getter
`GetUserOnlineStatus`). -/
def protos.ServerUpdate.GetUserOnlineStatus :
    protos.ServerUpdate → Option protos.UserStatusChange
  | protos.ServerUpdate.IncomingMessage _ => none
  | protos.ServerUpdate.UserOnlineStatus c => some c

/-- The state an iteration leaves. -/
def Iteration.state {σ : Type} : Iteration σ → σ
  | Iteration.returned _ s => s
  | Iteration.next s => s
  | Iteration.waiting s => s
  | Iteration.panic s => s

/-- A stream of the client with token `t` whose transport has failed. -/
def brokenStreamOf (t : String) : customServerStream :=
  { ServerStream := { ctx := incomingOf t, sent := [], broken := true },
    ctx := scopeOf t, md := [("client-id", [t])] }

/-- The registry of `twoUsers` after bob has sent alice two messages that no stream has
received. -/
def twoMessages : GrpcBackend :=
  sendRepeatedly (scopeOf "B") { ReceiverId := "A", Message := "hi alice" } 0 2 twoUsers

/-- The registry of `twoUsers` after bob has sent alice the message `one` and then the message
`two`, which no stream has received. -/
def twoLetters : GrpcBackend :=
  ((twoUsers.SendDirectMessage (scopeOf "B") { ReceiverId := "A", Message := "one" } 1).state
    |>.SendDirectMessage (scopeOf "B") { ReceiverId := "A", Message := "two" } 2).state

/-! ## The server seen from one stream -/

/-- A step of the server while one `GetUpdates` call is in progress: a unary call, an iteration
of the loop of that call, or an iteration of the loop of the `GetUpdates` call of another
session (through the pointer `user`, on its own stream `server`). -/
inductive Step where
  | register (request : protos.RegisterRequest) (newId : String)
  | deregister (ctx : Context)
  | send (ctx : Context) (request : protos.NewMessage) (now : Nat)
  | receive (pick : SelectCase)
  | other (clientId : String) (user : Nat) (pick : SelectCase) (server : customServerStream)

/-- The registry together with one `GetUpdates` call: the stream of the call, whether its loop
is still running, and, for the statements, the presence events that the loop has received from
the channel without passing them to `Send`. -/
structure System where
  s : GrpcBackend
  server : customServerStream
  running : Bool
  dropped : List protos.UserStatusChange
deriving DecidableEq, Repr

/-- One step of the system, for the `GetUpdates` call of the session `clientId` whose user
object is at `p`.  A unary call acts on the registry and leaves the state in which it ends,
however it ends.  The object at `p` has this call as its one consumer: a step of another call
through the same pointer is no step. -/
def System.step (clientId : String) (p : Nat) : Step → System → System
  | Step.register request newId, σ => { σ with s := (σ.s.Register request newId).state }
  | Step.deregister ctx, σ => { σ with s := (σ.s.Deregister ctx).state }
  | Step.send ctx request now, σ => { σ with s := (σ.s.SendDirectMessage ctx request now).state }
  | Step.receive pick, σ =>
    if σ.running then
      match GetUpdates.iteration clientId (some p) pick σ.s σ.server with
      | Iteration.next (s1, server1) => { σ with s := s1, server := server1 }
      | Iteration.returned _ (s1, server1) =>
        { s := s1, server := server1, running := false,
          dropped := σ.dropped ++
            ((σ.s.deref p).map (fun u => u.sendUserStatusUpdate.take 1)).getD [] }
      | Iteration.waiting _ => σ
      | Iteration.panic _ => { σ with running := false }
    else σ
  | Step.other clientId2 q pick server2, σ =>
    if q = p then σ
    else { σ with s := (GetUpdates.iteration clientId2 (some q) pick σ.s server2).state.1 }

/-- The steps of a list, one after the other. -/
def System.run (clientId : String) (p : Nat) : List Step → System → System
  | [], σ => σ
  | step :: steps, σ => System.run clientId p steps (System.step clientId p step σ)

/-- The messages delivered on the stream so far, oldest first. -/
def System.deliveredMessages (σ : System) : List protos.DirectMessage :=
  σ.server.ServerStream.sent.filterMap protos.ServerUpdate.GetIncomingMessage

/-- The presence events delivered on the stream so far, oldest first. -/
def System.deliveredStatus (σ : System) : List protos.UserStatusChange :=
  σ.server.ServerStream.sent.filterMap protos.ServerUpdate.GetUserOnlineStatus

/-- The messages of the session at `p` in the order in which they leave its message channel:
those delivered on the stream, then those waiting in the channel. -/
def System.messageLog (p : Nat) (σ : System) : List protos.DirectMessage :=
  σ.deliveredMessages ++ ((σ.s.deref p).map (fun u => u.sendMessage)).getD []

/-- The presence events of the session at `p` in the order in which they leave its presence
channel: those delivered on the stream, then the event received and not sent when the loop
returned, then those waiting in the channel. -/
def System.statusLog (p : Nat) (σ : System) : List protos.UserStatusChange :=
  σ.deliveredStatus ++ σ.dropped ++
    ((σ.s.deref p).map (fun u => u.sendUserStatusUpdate)).getD []

/-- An object with the same identity whose channels hold what they held, and possibly more
items behind. -/
def Entry.Extends (e e1 : Entry) : Prop :=
  e1.user.proto = e.user.proto ∧ e.user.sendMessage <+: e1.user.sendMessage ∧
    e.user.sendUserStatusUpdate <+: e1.user.sendUserStatusUpdate

/-- Every object of `es` is at the same position in `es1`, its channels extended at the
tail. -/
def Grows (es es1 : List Entry) : Prop :=
  ∀ (p : Nat) (e : Entry), es[p]? = some e → ∃ e1, es1[p]? = some e1 ∧ e.Extends e1

/-- The `GetUpdates` call of alice in the registry of `twoLetters`: its stream, on which
nothing has been sent yet, and its loop running. -/
def aliceListening : System :=
  { s := twoLetters, server := streamOf "A", running := true, dropped := [] }

/-- Alice leaves while her stream is open: her loop receives the message `one`, her
`Deregister` call runs, and her loop then takes three more turns. -/
def aliceLeaves : List Step :=
  [Step.receive SelectCase.sendMessage, Step.deregister (scopeOf "A"),
    Step.receive SelectCase.sendUserStatusUpdate, Step.receive SelectCase.sendMessage,
    Step.receive SelectCase.sendUserStatusUpdate]

/-! ## The states the server can reach -/

/-- No two users in the map are under the same key (a Go map holds a key once). -/
def GrpcBackend.UniqueKeys (s : GrpcBackend) : Prop :=
  (s.active.map (fun e => e.key)).Nodup

/-- No two users in the map hold the same display name. -/
def GrpcBackend.UniqueNames (s : GrpcBackend) : Prop :=
  (s.active.map (fun e => e.user.proto.Username)).Nodup

/-- No two users in the map hold the same token. -/
def GrpcBackend.UniqueTokens (s : GrpcBackend) : Prop :=
  (s.active.map (fun e => e.user.proto.Id)).Nodup

instance (s : GrpcBackend) : Decidable s.UniqueKeys := by
  unfold GrpcBackend.UniqueKeys
  infer_instance

instance (s : GrpcBackend) : Decidable s.UniqueNames := by
  unfold GrpcBackend.UniqueNames
  infer_instance

instance (s : GrpcBackend) : Decidable s.UniqueTokens := by
  unfold GrpcBackend.UniqueTokens
  infer_instance

/-- The states of the registry that sequences of calls reach from the empty registry: after
any `Register` whose token no user object has been given before, any `Deregister`, any
`SendDirectMessage`, in the state in which the call ends, however it ends; and, the calls
apart, after any iteration of the loop of a `GetUpdates` call. -/
inductive Reachable : GrpcBackend → Prop where
  | init : Reachable NewGrpcImplementation
  | register (s : GrpcBackend) (request : protos.RegisterRequest) (newId : String) :
    Reachable s → (∀ e ∈ s.onlineUsers, e.user.proto.Id ≠ newId) →
    Reachable (s.Register request newId).state
  | deregister (s : GrpcBackend) (ctx : Context) :
    Reachable s → Reachable (s.Deregister ctx).state
  | send (s : GrpcBackend) (ctx : Context) (request : protos.NewMessage) (now : Nat) :
    Reachable s → Reachable (s.SendDirectMessage ctx request now).state
  | receive (s : GrpcBackend) (clientId : String) (user : Option Nat) (pick : SelectCase)
      (server : customServerStream) :
    Reachable s → Reachable (GetUpdates.iteration clientId user pick s server).state.1

/-! # Theorems -/

set_option maxRecDepth 100000

/-! ## Map reads -/

theorem lookupPtr_eq_none_iff (es : List Entry) (k : String) :
    lookupPtr es k = none ↔ ∀ e ∈ es, e.key ≠ some k := by
  induction es with
  | nil => simp [lookupPtr]
  | cons e es ih =>
    by_cases h : e.key = some k
    · simp [lookupPtr, h]
    · simp [lookupPtr, h, ih]

theorem lookupPtr_eq_some (es : List Entry) (k : String) (p : Nat)
    (h : lookupPtr es k = some p) : ∃ e, es[p]? = some e ∧ e.key = some k := by
  induction es generalizing p with
  | nil => simp [lookupPtr] at h
  | cons e es ih =>
    by_cases hk : e.key = some k
    · simp [lookupPtr, hk] at h
      subst h
      exact ⟨e, by simp, hk⟩
    · simp [lookupPtr, hk] at h
      obtain ⟨q, hq, rfl⟩ := h
      obtain ⟨e1, h1, h2⟩ := ih q hq
      exact ⟨e1, by simpa using h1, h2⟩

theorem get_bind_deref (s : GrpcBackend) (k : String) (p : Nat) (h : s.get k = some p) :
    ∃ e, s.onlineUsers[p]? = some e ∧ e.key = some k ∧
      (s.get k).bind s.deref = some e.user := by
  obtain ⟨e, he, hk⟩ := lookupPtr_eq_some s.onlineUsers k p h
  exact ⟨e, he, hk, by simp [h, GrpcBackend.deref, he]⟩

theorem delete_of_get_none (s : GrpcBackend) (k : String) (h : s.get k = none) :
    s.delete k = s := by
  have h1 := (lookupPtr_eq_none_iff s.onlineUsers k).1 h
  cases s with
  | mk es =>
    simp only [GrpcBackend.delete, GrpcBackend.mk.injEq]
    calc es.map (fun e => if e.key = some k then { e with key := none } else e)
        = es.map id := List.map_congr_left (fun e he => by simp [h1 e he])
      _ = es := List.map_id es

theorem get_delete (es : List Entry) (t : String) :
    (GrpcBackend.delete { onlineUsers := es } t).get t = none := by
  simp only [GrpcBackend.get, GrpcBackend.delete]
  induction es with
  | nil => rfl
  | cons e es ih =>
    by_cases hk : e.key = some t
    · simp [lookupPtr, hk, ih]
    · simp [lookupPtr, hk, ih]

theorem wellKeyed_id (s : GrpcBackend) (hwk : s.WellKeyed) (e : Entry)
    (he : e ∈ s.onlineUsers) (k : String) (hk : e.key = some k) : e.user.proto.Id = k := by
  have h := hwk e he (by simp [hk])
  rw [hk] at h
  exact (Option.some.inj h).symm

/-! ## The broadcasts -/

theorem taken_eq_true_iff (username : String) (es : List Entry) :
    Register.taken username es = true ↔
      ∃ e ∈ es, e.key.isSome = true ∧ e.user.proto.Username = username := by
  induction es with
  | nil => simp [Register.taken]
  | cons e es ih =>
    by_cases hk : e.key.isSome = true
    · by_cases hn : e.user.proto.Username = username
      · simp [Register.taken, hk, hn]
      · simp [Register.taken, hk, hn, ih]
    · simp [Register.taken, hk, ih]

theorem user_notify_of_room (u : User) (update : protos.UserStatusChange)
    (h : u.sendUserStatusUpdate.length < chanCap) :
    u.notify update = some (u.pushStatus update) := by
  simp [User.notify, chanSend, h, User.pushStatus]

theorem user_notify_of_full (u : User) (update : protos.UserStatusChange)
    (h : ¬ u.sendUserStatusUpdate.length < chanCap) :
    u.notify update = none := by
  simp [User.notify, chanSend, h]

theorem hasRoom_iff (s : GrpcBackend) :
    s.HasRoom ↔
      ∀ e ∈ s.onlineUsers, e.key.isSome = true → e.user.sendUserStatusUpdate.length < chanCap := by
  simp [GrpcBackend.HasRoom, GrpcBackend.active]

theorem not_hasRoom (s : GrpcBackend) (h : ¬ s.HasRoom) :
    ∃ e ∈ s.onlineUsers, e.key.isSome = true ∧
      ¬ e.user.sendUserStatusUpdate.length < chanCap := by
  rw [hasRoom_iff] at h
  push_neg at h
  obtain ⟨e, he, hk, hf⟩ := h
  exact ⟨e, he, hk, by omega⟩

theorem deregister_notify_of_room (update : protos.UserStatusChange) (es : List Entry)
    (h : ∀ e ∈ es, e.key.isSome = true → e.user.sendUserStatusUpdate.length < chanCap) :
    Deregister.notify update es = Result.ret () (es.map (Entry.notified update)) := by
  induction es with
  | nil => simp [Deregister.notify]
  | cons e es ih =>
    have ih1 := ih (fun x hx => h x (List.mem_cons_of_mem _ hx))
    by_cases hk : e.key.isSome = true
    · have hr := h e (List.mem_cons_self _ _) hk
      simp [Deregister.notify, hk, user_notify_of_room _ _ hr, ih1, Result.mapState,
        Entry.notified]
    · simp [Deregister.notify, hk, ih1, Result.mapState, Entry.notified]

theorem deregister_notify_of_full (update : protos.UserStatusChange) (es : List Entry)
    (h : ∃ e ∈ es, e.key.isSome = true ∧ ¬ e.user.sendUserStatusUpdate.length < chanCap) :
    ∃ es1, Deregister.notify update es = Result.blocked es1 := by
  induction es with
  | nil => simp at h
  | cons e es ih =>
    by_cases hk : e.key.isSome = true
    · by_cases hr : e.user.sendUserStatusUpdate.length < chanCap
      · have h1 : ∃ x ∈ es, x.key.isSome = true ∧
            ¬ x.user.sendUserStatusUpdate.length < chanCap := by
          obtain ⟨x, hx, hxk, hxf⟩ := h
          rcases List.mem_cons.1 hx with rfl | hx
          · exact absurd hr hxf
          · exact ⟨x, hx, hxk, hxf⟩
        obtain ⟨es1, h2⟩ := ih h1
        exact ⟨_, by simp [Deregister.notify, hk, user_notify_of_room _ _ hr, h2,
          Result.mapState]; rfl⟩
      · exact ⟨_, by simp [Deregister.notify, hk, user_notify_of_full _ _ hr]; rfl⟩
    · have h1 : ∃ x ∈ es, x.key.isSome = true ∧
          ¬ x.user.sendUserStatusUpdate.length < chanCap := by
        obtain ⟨x, hx, hxk, hxf⟩ := h
        rcases List.mem_cons.1 hx with rfl | hx
        · exact absurd hxk hk
        · exact ⟨x, hx, hxk, hxf⟩
      obtain ⟨es1, h2⟩ := ih h1
      exact ⟨_, by simp [Deregister.notify, hk, h2, Result.mapState]; rfl⟩

/-- What `Deregister` does for a client id that is a key of the map. -/
theorem deregister_eq (s : GrpcBackend) (ctx : Context) (t : String) (p : Nat)
    (hctx : getClientIdFromContext ctx = (t, true)) (hp : s.get t = some p) :
    ∃ e, s.onlineUsers[p]? = some e ∧ e.key = some t ∧
      (s.HasRoom → s.Deregister ctx = Result.ret {}
        (GrpcBackend.delete
          { onlineUsers := s.onlineUsers.map (Entry.notified
              { Changed := { Id := e.user.proto.Id, Username := e.user.proto.Username },
                Add := false }) } t)) ∧
      (¬ s.HasRoom → ∃ s1, s.Deregister ctx = Result.blocked s1) := by
  obtain ⟨e, he, hk, hb⟩ := get_bind_deref s t p hp
  refine ⟨e, he, hk, ?_, ?_⟩
  · intro hroom
    have h1 := deregister_notify_of_room
      { Changed := { Id := e.user.proto.Id, Username := e.user.proto.Username }, Add := false }
      s.onlineUsers ((hasRoom_iff s).1 hroom)
    simp only [GrpcBackend.Deregister, hctx, hb, h1]
  · intro hroom
    obtain ⟨es1, h1⟩ := deregister_notify_of_full
      { Changed := { Id := e.user.proto.Id, Username := e.user.proto.Username }, Add := false }
      s.onlineUsers (not_hasRoom s hroom)
    exact ⟨{ onlineUsers := es1 }, by simp only [GrpcBackend.Deregister, hctx, hb, h1]⟩

theorem list_delete_notified_aux (update : protos.UserStatusChange) (es : List Entry)
    (t : String) :
    (((es.map (Entry.notified update)).map
        (fun e => if e.key = some t then { e with key := none } else e)).filter
          (fun e => e.key.isSome)).map (fun e => e.user.proto) =
      ((es.filter (fun e => e.key.isSome)).filter
        (fun e => decide (e.key ≠ some t))).map (fun e => e.user.proto) := by
  induction es with
  | nil => rfl
  | cons e es ih =>
    simp only [List.map_cons]
    by_cases hk : e.key = some t
    · rw [List.filter_cons_of_neg (by simp [Entry.notified, hk]),
        List.filter_cons_of_pos (by simp [hk]),
        List.filter_cons_of_neg (by simp [hk])]
      exact ih
    · cases hk2 : e.key with
      | none =>
        rw [List.filter_cons_of_neg (by simp [Entry.notified, hk2]),
          List.filter_cons_of_neg (by simp [hk2])]
        exact ih
      | some k =>
        have hkt : ¬ (some k = some t) := by rw [← hk2]; exact hk
        rw [List.filter_cons_of_pos (by simp [Entry.notified, hk2, hkt]),
          List.filter_cons_of_pos (by simp [hk2]),
          List.filter_cons_of_pos (by simpa [hk2] using hkt)]
        simp only [List.map_cons, ih]
        simp [Entry.notified, hk2, hkt, User.pushStatus]

theorem list_delete_notified (update : protos.UserStatusChange) (s : GrpcBackend) (t : String) :
    (GrpcBackend.delete { onlineUsers := s.onlineUsers.map (Entry.notified update) } t).List.Users
      = (s.active.filter (fun e => decide (e.key ≠ some t))).map (fun e => e.user.proto) :=
  list_delete_notified_aux update s.onlineUsers t

theorem register_notify_of_room (update : protos.UserStatusChange) (es : List Entry)
    (h : ∀ e ∈ es, e.key.isSome = true → e.user.proto.Id ≠ update.Changed.Id →
      e.user.sendUserStatusUpdate.length < chanCap) :
    Register.notify update es = Result.ret () (es.map (Entry.notifiedOthers update)) := by
  induction es with
  | nil => simp [Register.notify]
  | cons e es ih =>
    have ih1 := ih (fun x hx => h x (List.mem_cons_of_mem _ hx))
    by_cases hk : e.key.isSome = true
    · by_cases hid : e.user.proto.Id = update.Changed.Id
      · simp [Register.notify, hk, hid, ih1, Result.mapState, Entry.notifiedOthers]
      · have hr := h e (List.mem_cons_self _ _) hk hid
        simp [Register.notify, hk, hid, user_notify_of_room _ _ hr, ih1, Result.mapState,
          Entry.notifiedOthers, Entry.notified]
    · simp [Register.notify, hk, ih1, Result.mapState, Entry.notifiedOthers, Entry.notified]

theorem register_notify_of_full (update : protos.UserStatusChange) (es : List Entry)
    (h : ∃ e ∈ es, e.key.isSome = true ∧ e.user.proto.Id ≠ update.Changed.Id ∧
      ¬ e.user.sendUserStatusUpdate.length < chanCap) :
    ∃ es1, Register.notify update es = Result.blocked es1 := by
  induction es with
  | nil => simp at h
  | cons e es ih =>
    have hrest : (¬ (e.key.isSome = true ∧ e.user.proto.Id ≠ update.Changed.Id ∧
        ¬ e.user.sendUserStatusUpdate.length < chanCap)) →
        ∃ es1, Register.notify update es = Result.blocked es1 := by
      intro hne
      apply ih
      obtain ⟨x, hx, hx3⟩ := h
      rcases List.mem_cons.1 hx with rfl | hx
      · exact absurd hx3 hne
      · exact ⟨x, hx, hx3⟩
    by_cases hk : e.key.isSome = true
    · by_cases hid : e.user.proto.Id = update.Changed.Id
      · obtain ⟨es1, h2⟩ := hrest (fun hh => hh.2.1 hid)
        exact ⟨e :: es1, by simp [Register.notify, hk, hid, h2, Result.mapState]⟩
      · by_cases hr : e.user.sendUserStatusUpdate.length < chanCap
        · obtain ⟨es1, h2⟩ := hrest (fun hh => hh.2.2 hr)
          exact ⟨{ e with user := e.user.pushStatus update } :: es1, by
            simp [Register.notify, hk, hid, user_notify_of_room _ _ hr, h2, Result.mapState]⟩
        · exact ⟨e :: es, by simp [Register.notify, hk, hid, user_notify_of_full _ _ hr]⟩
    · obtain ⟨es1, h2⟩ := hrest (fun hh => hk hh.1)
      exact ⟨e :: es1, by simp [Register.notify, hk, h2, Result.mapState]⟩

theorem notifiedOthers_eq_notified (s : GrpcBackend) (update : protos.UserStatusChange)
    (hwk : s.WellKeyed) (hfresh : s.get update.Changed.Id = none) :
    s.onlineUsers.map (Entry.notifiedOthers update) =
      s.onlineUsers.map (Entry.notified update) := by
  have h1 := (lookupPtr_eq_none_iff s.onlineUsers _).1 hfresh
  apply List.map_congr_left
  intro e he
  cases hk : e.key with
  | none => simp [Entry.notifiedOthers, Entry.notified, hk]
  | some k =>
    have hid := wellKeyed_id s hwk e he k hk
    have hne : ¬ (e.user.proto.Id = update.Changed.Id) := by
      intro hh
      apply h1 e he
      rw [hk, ← hid, hh]
    simp [Entry.notifiedOthers, hne]

/-- What `Register` does with a name that no user in the map holds and a token that is not a
key of the map. -/
theorem register_eq (s : GrpcBackend) (request : protos.RegisterRequest) (newId : String)
    (hwk : s.WellKeyed) (hfresh : s.get newId = none)
    (hname : ∀ e ∈ s.active, e.user.proto.Username ≠ request.Username) :
    (s.HasRoom → s.Register request newId =
      Result.ret { Id := newId, Username := request.Username }
        { onlineUsers :=
            s.onlineUsers.map (Entry.notified (joinedEvent newId request.Username)) ++
              [{ key := some newId, user := newUser newId request.Username }] }) ∧
    (¬ s.HasRoom → ∃ s1, s.Register request newId = Result.blocked s1) := by
  have ht : Register.taken request.Username s.onlineUsers = false := by
    rw [Bool.eq_false_iff]
    intro h
    obtain ⟨e, he, hk, hn⟩ := (taken_eq_true_iff _ _).1 h
    exact hname e (by simp [GrpcBackend.active, he, hk]) hn
  have hins : (s.insert newId (newUser newId request.Username)).onlineUsers =
      s.onlineUsers ++ [{ key := some newId, user := newUser newId request.Username }] := by
    simp [GrpcBackend.insert, delete_of_get_none s newId hfresh]
  have hnone := (lookupPtr_eq_none_iff s.onlineUsers _).1 hfresh
  have hids : ∀ e ∈ s.onlineUsers, e.key.isSome = true → e.user.proto.Id ≠ newId := by
    intro e he hk hh
    obtain ⟨k, hk1⟩ := Option.isSome_iff_exists.1 hk
    apply hnone e he
    rw [hk1, ← wellKeyed_id s hwk e he k hk1, hh]
  constructor
  · intro hroom
    have hr := (hasRoom_iff s).1 hroom
    have h1 := register_notify_of_room (joinedEvent newId request.Username)
      (s.onlineUsers ++ [{ key := some newId, user := newUser newId request.Username }])
      (by
        intro e he hk hid
        rcases List.mem_append.1 he with he | he
        · exact hr e he hk
        · simp [newUser, joinedEvent] at he
          subst he
          simp [joinedEvent] at hid)
    have h2 := notifiedOthers_eq_notified s (joinedEvent newId request.Username) hwk hfresh
    simp only [List.map_append, h2] at h1
    simp only [joinedEvent, newUser] at hins h1 ⊢
    simp only [GrpcBackend.Register, ht, Bool.false_eq_true, if_false, hins, h1]
    simp [Entry.notifiedOthers]
  · intro hroom
    obtain ⟨e, he, hk, hf⟩ := not_hasRoom s hroom
    obtain ⟨es1, h1⟩ := register_notify_of_full (joinedEvent newId request.Username)
      (s.onlineUsers ++ [{ key := some newId, user := newUser newId request.Username }])
      ⟨e, List.mem_append_left _ he, hk, hids e he hk, hf⟩
    refine ⟨{ onlineUsers := es1 }, ?_⟩
    simp only [joinedEvent, newUser] at hins h1 ⊢
    simp only [GrpcBackend.Register, ht, Bool.false_eq_true, if_false, hins, h1]

/-! ## Sequences of `Register` calls -/

theorem registerAll_append_ret (s s1 : GrpcBackend) (cs ds : List (protos.RegisterRequest × String))
    (us : List protos.User) (h : RegisterAll s cs = Result.ret us s1) :
    RegisterAll s (cs ++ ds) =
      match RegisterAll s1 ds with
      | Result.ret vs s2 => Result.ret (us ++ vs) s2
      | r => r := by
  induction cs generalizing s us with
  | nil =>
    simp only [RegisterAll, Result.ret.injEq] at h
    obtain ⟨rfl, rfl⟩ := h
    simp only [List.nil_append]
    cases RegisterAll s ds <;> rfl
  | cons c cs ih =>
    obtain ⟨request, newId⟩ := c
    simp only [RegisterAll, List.cons_append] at h ⊢
    cases hr : s.Register request newId with
    | ret u s0 =>
      rw [hr] at h
      simp only at h ⊢
      cases hr2 : RegisterAll s0 cs with
      | ret ws s3 =>
        rw [hr2] at h
        simp only [Result.ret.injEq] at h
        obtain ⟨rfl, rfl⟩ := h
        have h3 := ih s0 ws hr2
        show (match RegisterAll s0 (cs ++ ds) with
          | Result.ret users s2 => Result.ret (u :: users) s2
          | r => r) = _
        rw [h3]
        cases RegisterAll s3 ds <;> rfl
      | err m s3 => rw [hr2] at h; simp at h
      | panic s3 => rw [hr2] at h; simp at h
      | blocked s3 => rw [hr2] at h; simp at h
    | err m s0 => rw [hr] at h; simp at h
    | panic s0 => rw [hr] at h; simp at h
    | blocked s0 => rw [hr] at h; simp at h

theorem registered_append (cs : List (protos.RegisterRequest × String))
    (c : protos.RegisterRequest × String) :
    registered (cs ++ [c]) =
      (registered cs).map (Entry.notified (joinedEvent c.2 c.1.Username)) ++
        [{ key := some c.2, user := newUser c.2 c.1.Username }] := by
  induction cs with
  | nil => simp [registered, newUser]
  | cons d cs ih =>
    simp [registered, ih, Entry.notified, User.pushStatus]

theorem registered_wellKeyed (cs : List (protos.RegisterRequest × String)) :
    GrpcBackend.WellKeyed { onlineUsers := registered cs } := by
  induction cs with
  | nil => simp [GrpcBackend.WellKeyed, registered]
  | cons c cs ih =>
    intro e he hk
    simp only [registered, List.mem_cons] at he
    rcases he with rfl | he
    · rfl
    · exact ih e he hk

theorem registered_key (cs : List (protos.RegisterRequest × String)) :
    ∀ e ∈ registered cs, ∃ c ∈ cs, e.key = some c.2 ∧ e.user.proto.Username = c.1.Username := by
  induction cs with
  | nil => simp [registered]
  | cons c cs ih =>
    intro e he
    simp only [registered, List.mem_cons] at he
    rcases he with rfl | he
    · exact ⟨c, List.mem_cons_self _ _, rfl, rfl⟩
    · obtain ⟨d, hd, h1, h2⟩ := ih e he
      exact ⟨d, List.mem_cons_of_mem _ hd, h1, h2⟩

theorem registered_length_lt (cs : List (protos.RegisterRequest × String)) :
    ∀ e ∈ registered cs, e.user.sendUserStatusUpdate.length < cs.length := by
  induction cs with
  | nil => simp [registered]
  | cons c cs ih =>
    intro e he
    simp only [registered, List.mem_cons] at he
    rcases he with rfl | he
    · simp
    · have := ih e he
      simp only [List.length_cons]
      omega

theorem registered_hasRoom (cs : List (protos.RegisterRequest × String))
    (h : cs.length ≤ chanCap) : GrpcBackend.HasRoom { onlineUsers := registered cs } := by
  intro e he
  have he1 : e ∈ registered cs := by
    simp only [GrpcBackend.active, List.mem_filter] at he
    exact he.1
  have := registered_length_lt cs e he1
  omega

theorem registered_not_hasRoom (cs : List (protos.RegisterRequest × String))
    (h : chanCap < cs.length) : ¬ GrpcBackend.HasRoom { onlineUsers := registered cs } := by
  intro hroom
  cases cs with
  | nil => simp at h
  | cons c cs =>
    have := hroom
      { key := some c.2,
        user := { proto := { Id := c.2, Username := c.1.Username },
                  sendMessage := [],
                  sendUserStatusUpdate := cs.map (fun c => joinedEvent c.2 c.1.Username) } }
      (by simp [GrpcBackend.active, registered])
    simp only [List.length_map, List.length_cons] at this h
    omega

theorem registered_list (cs : List (protos.RegisterRequest × String)) :
    (GrpcBackend.List { onlineUsers := registered cs }).Users =
      cs.map (fun c => { Id := c.2, Username := c.1.Username }) := by
  induction cs with
  | nil => rfl
  | cons c cs ih =>
    simp only [GrpcBackend.List, GrpcBackend.active, registered] at ih ⊢
    rw [List.filter_cons_of_pos (by simp)]
    simp only [List.map_cons, ih]

/-- What one more `Register` does after a sequence of them. -/
theorem register_after_registered (cs : List (protos.RegisterRequest × String))
    (c : protos.RegisterRequest × String)
    (hnames : ((cs ++ [c]).map (fun c => c.1.Username)).Nodup)
    (hids : ((cs ++ [c]).map (fun c => c.2)).Nodup) :
    (cs.length ≤ chanCap →
      GrpcBackend.Register { onlineUsers := registered cs } c.1 c.2 =
        Result.ret { Id := c.2, Username := c.1.Username }
          { onlineUsers := registered (cs ++ [c]) }) ∧
    (chanCap < cs.length →
      ∃ s1, GrpcBackend.Register { onlineUsers := registered cs } c.1 c.2 =
        Result.blocked s1) := by
  have hn : ∀ d ∈ cs, d.1.Username ≠ c.1.Username := by
    intro d hd hh
    rw [List.map_append, List.nodup_append] at hnames
    exact hnames.2.2 (List.mem_map_of_mem (fun c => c.1.Username) hd)
      (by simp [hh])
  have hi : ∀ d ∈ cs, d.2 ≠ c.2 := by
    intro d hd hh
    rw [List.map_append, List.nodup_append] at hids
    exact hids.2.2 (List.mem_map_of_mem (fun c => c.2) hd) (by simp [hh])
  have hfresh : GrpcBackend.get { onlineUsers := registered cs } c.2 = none := by
    rw [GrpcBackend.get, lookupPtr_eq_none_iff]
    intro e he hk
    obtain ⟨d, hd, h1, _⟩ := registered_key cs e he
    rw [h1] at hk
    exact hi d hd (Option.some.inj hk)
  have hname : ∀ e ∈ GrpcBackend.active { onlineUsers := registered cs },
      e.user.proto.Username ≠ c.1.Username := by
    intro e he
    have he1 : e ∈ registered cs := by
      simp only [GrpcBackend.active, List.mem_filter] at he
      exact he.1
    obtain ⟨d, hd, _, h2⟩ := registered_key cs e he1
    rw [h2]
    exact hn d hd
  obtain ⟨h1, h2⟩ := register_eq { onlineUsers := registered cs } c.1 c.2
    (registered_wellKeyed cs) hfresh hname
  constructor
  · intro hlen
    rw [h1 (registered_hasRoom cs hlen), registered_append]
  · intro hlen
    exact h2 (registered_not_hasRoom cs hlen)

theorem registerAll_registered (cs : List (protos.RegisterRequest × String))
    (hnames : (cs.map (fun c => c.1.Username)).Nodup)
    (hids : (cs.map (fun c => c.2)).Nodup)
    (hlen : cs.length ≤ chanCap + 1) :
    RegisterAll NewGrpcImplementation cs =
      Result.ret (cs.map (fun c => { Id := c.2, Username := c.1.Username }))
        { onlineUsers := registered cs } := by
  induction cs using List.reverseRecOn with
  | nil => rfl
  | append_singleton cs c ih =>
    have hnames1 : (cs.map (fun c => c.1.Username)).Nodup := by
      rw [List.map_append, List.nodup_append] at hnames
      exact hnames.1
    have hids1 : (cs.map (fun c => c.2)).Nodup := by
      rw [List.map_append, List.nodup_append] at hids
      exact hids.1
    have hlen1 : cs.length ≤ chanCap := by
      simp only [List.length_append, List.length_singleton] at hlen
      omega
    have h1 := ih hnames1 hids1 (by omega)
    rw [registerAll_append_ret _ _ cs [c] _ h1]
    have h2 := (register_after_registered cs c hnames hids).1 hlen1
    simp [RegisterAll, h2]

theorem registerAll_blocked (cs ds : List (protos.RegisterRequest × String))
    (c : protos.RegisterRequest × String)
    (hnames : ((cs ++ [c]).map (fun c => c.1.Username)).Nodup)
    (hids : ((cs ++ [c]).map (fun c => c.2)).Nodup)
    (hlen : cs.length = chanCap + 1) :
    ∃ s1, RegisterAll NewGrpcImplementation (cs ++ c :: ds) = Result.blocked s1 := by
  have hnames1 : (cs.map (fun c => c.1.Username)).Nodup := by
    rw [List.map_append, List.nodup_append] at hnames
    exact hnames.1
  have hids1 : (cs.map (fun c => c.2)).Nodup := by
    rw [List.map_append, List.nodup_append] at hids
    exact hids.1
  have h1 := registerAll_registered cs hnames1 hids1 (by omega)
  obtain ⟨s1, h2⟩ := (register_after_registered cs c hnames hids).2 (by omega)
  refine ⟨s1, ?_⟩
  rw [registerAll_append_ret _ _ cs (c :: ds) _ h1]
  simp [RegisterAll, h2]

/-! ## The keys of the map are the tokens of the users

`WellKeyed` holds in the empty registry and in the state that any call leaves, however the call
ends. -/

theorem wellKeyed_of_same (es es1 : List Entry)
    (h : es1.map (fun e => (e.key, e.user.proto)) = es.map (fun e => (e.key, e.user.proto)))
    (hwk : GrpcBackend.WellKeyed { onlineUsers := es }) :
    GrpcBackend.WellKeyed { onlineUsers := es1 } := by
  intro e1 he1 hk
  have hm : (e1.key, e1.user.proto) ∈ es1.map (fun e => (e.key, e.user.proto)) :=
    List.mem_map_of_mem _ he1
  rw [h] at hm
  obtain ⟨e, he, heq⟩ := List.mem_map.1 hm
  simp only [Prod.mk.injEq] at heq
  have := hwk e he (by rw [heq.1]; exact hk)
  rw [← heq.1, ← heq.2]
  exact this

theorem mapState_state {σ τ ρ : Type} (f : σ → τ) (r : Result σ ρ) :
    (r.mapState f).state = f r.state := by
  cases r <;> rfl

theorem user_notify_proto (u u1 : User) (update : protos.UserStatusChange)
    (h : u.notify update = some u1) : u1.proto = u.proto := by
  unfold User.notify at h
  split at h
  · simp only [Option.some.injEq] at h
    rw [← h]
  · exact Option.noConfusion h

theorem register_notify_same (update : protos.UserStatusChange) (es : List Entry) :
    (Register.notify update es).state.map (fun e => (e.key, e.user.proto)) =
      es.map (fun e => (e.key, e.user.proto)) := by
  induction es with
  | nil => rfl
  | cons e es ih =>
    unfold Register.notify
    split
    · split
      · simp [mapState_state, ih]
      · split
        · rfl
        · rename_i u hu
          simp [mapState_state, ih, user_notify_proto _ _ _ hu]
    · simp [mapState_state, ih]

theorem deregister_notify_same (update : protos.UserStatusChange) (es : List Entry) :
    (Deregister.notify update es).state.map (fun e => (e.key, e.user.proto)) =
      es.map (fun e => (e.key, e.user.proto)) := by
  induction es with
  | nil => rfl
  | cons e es ih =>
    unfold Deregister.notify
    split
    · split
      · rfl
      · rename_i u hu
        simp [mapState_state, ih, user_notify_proto _ _ _ hu]
    · simp [mapState_state, ih]

theorem wellKeyed_new : NewGrpcImplementation.WellKeyed := by
  intro e he
  simp [NewGrpcImplementation] at he

theorem delete_wellKeyed (s : GrpcBackend) (k : String) (hwk : s.WellKeyed) :
    (s.delete k).WellKeyed := by
  intro e1 he1 hk
  simp only [GrpcBackend.delete, List.mem_map] at he1
  obtain ⟨e, he, rfl⟩ := he1
  by_cases h : e.key = some k
  · simp [h] at hk
  · simp only [h, if_false] at hk ⊢
    exact hwk e he hk

theorem insert_wellKeyed (s : GrpcBackend) (user : User) (hwk : s.WellKeyed) :
    (s.insert user.proto.Id user).WellKeyed := by
  intro e he hk
  simp only [GrpcBackend.insert, List.mem_append, List.mem_singleton] at he
  rcases he with he | rfl
  · exact delete_wellKeyed s _ hwk e he hk
  · rfl

theorem register_wellKeyed (s : GrpcBackend) (request : protos.RegisterRequest)
    (newId : String) (hwk : s.WellKeyed) : (s.Register request newId).state.WellKeyed := by
  unfold GrpcBackend.Register
  split
  · exact hwk
  · have h1 := insert_wellKeyed s (newUser newId request.Username) hwk
    have h2 := register_notify_same (joinedEvent newId request.Username)
      (s.insert newId (newUser newId request.Username)).onlineUsers
    have h3 := wellKeyed_of_same _ _ h2 h1
    simp only [joinedEvent, newUser] at h3
    simp only
    split <;> rename_i heq <;> rw [heq] at h3 <;> exact h3

theorem deregister_wellKeyed (s : GrpcBackend) (ctx : Context) (hwk : s.WellKeyed) :
    (s.Deregister ctx).state.WellKeyed := by
  unfold GrpcBackend.Deregister
  split
  · exact hwk
  · split
    · exact hwk
    · rename_i userToDelete _
      have h2 := deregister_notify_same
        { Changed := { Id := userToDelete.proto.Id, Username := userToDelete.proto.Username },
          Add := false } s.onlineUsers
      have h3 := wellKeyed_of_same _ _ h2 hwk
      simp only
      split <;> rename_i heq <;> rw [heq] at h3
      · exact delete_wellKeyed _ _ h3
      · exact h3
      · exact h3
      · exact h3

theorem set_wellKeyed (s : GrpcBackend) (p : Nat) (e : Entry) (u : User)
    (he : s.onlineUsers[p]? = some e) (hu : u.proto = e.user.proto) (hwk : s.WellKeyed) :
    GrpcBackend.WellKeyed { onlineUsers := s.onlineUsers.set p { e with user := u } } := by
  intro x hx hk
  rcases List.mem_or_eq_of_mem_set hx with hx | rfl
  · exact hwk x hx hk
  · have := hwk e (List.getElem?_mem he) hk
    simpa [hu] using this

theorem sendDirectMessage_wellKeyed (s : GrpcBackend) (ctx : Context)
    (request : protos.NewMessage) (now : Nat) (hwk : s.WellKeyed) :
    (s.SendDirectMessage ctx request now).state.WellKeyed := by
  unfold GrpcBackend.SendDirectMessage
  simp only
  split
  · exact hwk
  · split
    · exact hwk
    · split
      · exact hwk
      · rename_i e he
        split
        · exact hwk
        · exact set_wellKeyed s _ e _ he rfl hwk

theorem select_proto (u u1 : User) (pick : SelectCase)
    (item : protos.DirectMessage ⊕ protos.UserStatusChange)
    (h : GetUpdates.select u pick = some (item, u1)) : u1.proto = u.proto := by
  unfold GetUpdates.select at h
  split at h <;> simp only [Option.some.injEq, Prod.mk.injEq, reduceCtorEq] at h <;>
    (obtain ⟨_, rfl⟩ := h; rfl)

/-! ## Register with a name that is taken (C1) -/

/-- C1: when the display name of the request is held by a user in the map, `Register` returns
the error "username is already taken" and the state it leaves is the state it found: the same
map, and every channel of every user with the items it had. -/
theorem C1_register_name_taken (s : GrpcBackend) (request : protos.RegisterRequest)
    (newId : String)
    (h : ∃ e ∈ s.active, e.user.proto.Username = request.Username) :
    s.Register request newId = Result.err "username is already taken" s := by
  obtain ⟨e, he, hn⟩ := h
  have hmem : e ∈ s.onlineUsers ∧ e.key.isSome = true := by
    simpa [GrpcBackend.active] using he
  have ht : Register.taken request.Username s.onlineUsers = true :=
    (taken_eq_true_iff _ _).2 ⟨e, hmem.1, hmem.2, hn⟩
  simp [GrpcBackend.Register, ht]

/-- C1 at the registry of alice and bob: a third call asking for the name alice. -/
theorem C1_register_name_taken_witness :
    (∃ e ∈ twoUsers.active, e.user.proto.Username = "alice") ∧
      twoUsers.Register { Username := "alice" } "C" =
        Result.err "username is already taken" twoUsers :=
  ⟨by decide, C1_register_name_taken twoUsers { Username := "alice" } "C" (by decide)⟩

/-! ## Sequences of Register calls (C2) -/

theorem manyCalls_succ (n : Nat) :
    manyCalls (n + 1) =
      manyCalls n ++ [({ Username := "user" ++ toString n }, "token" ++ toString n)] := by
  simp [manyCalls, List.range_succ]

theorem manyCalls_names : ((manyCalls 102).map (fun c => c.1.Username)).Nodup := by
  decide

theorem manyCalls_ids : ((manyCalls 102).map (fun c => c.2)).Nodup := by
  decide

/-- C2 fails for 102 users: the names `user0 .. user101` are pairwise distinct, the tokens
`token0 .. token101` are pairwise distinct, and with no stream receiving, the sequence of the
102 calls from the empty registry does not return 102 identities: its last call is blocked, at
the send to the presence channel of `user0`, which holds the 100 Joined events of
`user1 .. user100`. -/
theorem C2_counterexample :
    ((manyCalls 102).map (fun c => c.1.Username)).Nodup ∧
    ((manyCalls 102).map (fun c => c.2)).Nodup ∧
    (∃ s1, RegisterAll NewGrpcImplementation (manyCalls 102) = Result.blocked s1) ∧
    ¬ ∃ users s1, RegisterAll NewGrpcImplementation (manyCalls 102) = Result.ret users s1 := by
  have hb : ∃ s1, RegisterAll NewGrpcImplementation (manyCalls 102) = Result.blocked s1 := by
    have h := registerAll_blocked (manyCalls 101) []
      ({ Username := "user" ++ toString 101 }, "token" ++ toString 101)
      (by rw [← manyCalls_succ]; exact manyCalls_names)
      (by rw [← manyCalls_succ]; exact manyCalls_ids)
      (by simp [manyCalls, chanCap])
    rw [manyCalls_succ]
    exact h
  refine ⟨manyCalls_names, manyCalls_ids, hb, ?_⟩
  rintro ⟨users, s1, h⟩
  obtain ⟨s2, h2⟩ := hb
  rw [h2] at h
  exact Result.noConfusion h

/-- C2, amended: from the empty registry, a sequence of `Register` calls with pairwise distinct
names and pairwise distinct tokens, with no receive in between, returns the identity
`(token, name)` of every call when it has at most `chanCap + 1 = 101` calls, and then `List`
returns exactly those identities, whose tokens are pairwise distinct; a longer sequence is
blocked (at its call number 102). -/
theorem C2_register_sequence (calls : List (protos.RegisterRequest × String))
    (hnames : (calls.map (fun c => c.1.Username)).Nodup)
    (hids : (calls.map (fun c => c.2)).Nodup) :
    (calls.length ≤ chanCap + 1 →
      ∃ s1, RegisterAll NewGrpcImplementation calls =
          Result.ret (calls.map (fun c => { Id := c.2, Username := c.1.Username })) s1 ∧
        s1.List.Users.Perm (calls.map (fun c => { Id := c.2, Username := c.1.Username })) ∧
        (s1.List.Users.map (fun u => u.Id)).Nodup) ∧
    (chanCap + 1 < calls.length →
      ∃ s1, RegisterAll NewGrpcImplementation calls = Result.blocked s1) := by
  constructor
  · intro hlen
    refine ⟨{ onlineUsers := registered calls }, registerAll_registered calls hnames hids hlen,
      ?_, ?_⟩
    · rw [registered_list]
    · rw [registered_list, List.map_map]
      exact hids
  · intro hlen
    have hsplit : calls = calls.take (chanCap + 1) ++ calls.drop (chanCap + 1) :=
      (List.take_append_drop _ _).symm
    cases hd : calls.drop (chanCap + 1) with
    | nil =>
      have := congrArg List.length hd
      simp only [List.length_drop, List.length_nil] at this
      omega
    | cons c ds =>
      rw [hd] at hsplit
      have hpre : (calls.take (chanCap + 1) ++ [c]) <+: calls :=
        ⟨ds, by simp [← hsplit]⟩
      have hsub := hpre.sublist
      have h := registerAll_blocked (calls.take (chanCap + 1)) ds c
        ((hsub.map _).nodup hnames) ((hsub.map _).nodup hids)
        (by simp only [List.length_take]; omega)
      rw [← hsplit] at h
      exact h

/-- C2 amended, at the two calls of alice and bob. -/
theorem C2_register_sequence_witness :
    ∃ s1, RegisterAll NewGrpcImplementation
        [({ Username := "alice" }, "A"), ({ Username := "bob" }, "B")] =
      Result.ret [{ Id := "A", Username := "alice" }, { Id := "B", Username := "bob" }] s1 ∧
      s1.List.Users.Perm [{ Id := "A", Username := "alice" }, { Id := "B", Username := "bob" }] ∧
      (s1.List.Users.map (fun u => u.Id)).Nodup :=
  (C2_register_sequence [({ Username := "alice" }, "A"), ({ Username := "bob" }, "B")]
    (by decide) (by decide)).1 (by decide)

/-! ## Deregister (C3, C4) -/

theorem deregister_ret (s : GrpcBackend) (ctx : Context) (t : String) (p : Nat)
    (hctx : getClientIdFromContext ctx = (t, true)) (hp : s.get t = some p) (hwk : s.WellKeyed) :
    ∃ e, s.onlineUsers[p]? = some e ∧ e.key = some t ∧
      (s.HasRoom → s.Deregister ctx = Result.ret {}
        (GrpcBackend.delete
          { onlineUsers :=
              s.onlineUsers.map (Entry.notified (leftEvent t e.user.proto.Username)) } t)) ∧
      (∀ r s1, s.Deregister ctx = Result.ret r s1 →
        s.HasRoom ∧ s1 = GrpcBackend.delete
          { onlineUsers :=
              s.onlineUsers.map (Entry.notified (leftEvent t e.user.proto.Username)) } t) := by
  obtain ⟨e, he, hk, h1, h2⟩ := deregister_eq s ctx t p hctx hp
  have hid : e.user.proto.Id = t := wellKeyed_id s hwk e (List.getElem?_mem he) t hk
  rw [hid] at h1
  refine ⟨e, he, hk, h1, ?_⟩
  intro r s1 hr
  by_cases hroom : s.HasRoom
  · refine ⟨hroom, ?_⟩
    rw [h1 hroom] at hr
    simp only [Result.ret.injEq] at hr
    exact hr.2.symm
  · obtain ⟨s2, h3⟩ := h2 hroom
    rw [h3] at hr
    exact Result.noConfusion hr

/-- C3: for a call scope that carries the token `t` of a user in the map, in a registry whose
entries are keyed by their own token: whenever `Deregister` returns, `List` on the state it
leaves returns exactly the identities of the users that were in the map under another key, none
of them has the token `t`, and `t` is no longer a key of the map; and `Deregister` does return
(with a nil error) when no presence channel is full. -/
theorem C3_deregister_list (s : GrpcBackend) (ctx : Context) (t : String)
    (hctx : getClientIdFromContext ctx = (t, true)) (ht : (s.get t).isSome = true)
    (hwk : s.WellKeyed) :
    (∀ r s1, s.Deregister ctx = Result.ret r s1 →
      s1.List.Users =
        (s.active.filter (fun e => decide (e.key ≠ some t))).map (fun e => e.user.proto) ∧
      (∀ u ∈ s1.List.Users, u.Id ≠ t) ∧
      s1.get t = none) ∧
    (s.HasRoom → ∃ s1, s.Deregister ctx = Result.ret {} s1) := by
  obtain ⟨p, hp⟩ := Option.isSome_iff_exists.1 ht
  obtain ⟨e, _, _, h1, h2⟩ := deregister_ret s ctx t p hctx hp hwk
  refine ⟨?_, fun hroom => ⟨_, h1 hroom⟩⟩
  intro r s1 hr
  obtain ⟨_, rfl⟩ := h2 r s1 hr
  have hl := list_delete_notified (leftEvent t e.user.proto.Username) s t
  refine ⟨hl, ?_, get_delete _ t⟩
  intro u hu
  rw [hl] at hu
  obtain ⟨x, hx, rfl⟩ := List.mem_map.1 hu
  simp only [GrpcBackend.active, List.mem_filter, decide_eq_true_eq] at hx
  obtain ⟨⟨hx1, hx2⟩, hx3⟩ := hx
  obtain ⟨k, hk⟩ := Option.isSome_iff_exists.1 hx2
  rw [wellKeyed_id s hwk x hx1 k hk]
  intro hkt
  exact hx3 (by rw [hk, hkt])

/-- C3 at the registry of alice and bob, alice leaving: `List` returns bob alone. -/
theorem C3_deregister_list_witness :
    ∃ s1, twoUsers.Deregister (scopeOf "A") = Result.ret {} s1 ∧
      s1.List.Users = [{ Id := "B", Username := "bob" }] ∧
      (∀ u ∈ s1.List.Users, u.Id ≠ "A") ∧ s1.get "A" = none := by
  have h := C3_deregister_list twoUsers (scopeOf "A") "A" (by decide) (by decide) (by decide)
  obtain ⟨s1, h1⟩ := h.2 (by decide)
  obtain ⟨h2, h3, h4⟩ := h.1 {} s1 h1
  exact ⟨s1, h1, by rw [h2]; decide, h3, h4⟩

/-- C4 fails when a presence channel is full: the registry `crowded` is the one that the 101
calls of `manyCalls 101` leave, its entries are keyed by their own token, the scope carries the
token `token0` of a user in the map, and `Deregister` for it does not return: it is blocked at a
send (the presence channel of `user0` holds 100 events), so that not every user is sent the
event and the key is not deleted. -/
theorem C4_counterexample :
    RegisterAll NewGrpcImplementation (manyCalls 101) =
      Result.ret ((manyCalls 101).map (fun c => { Id := c.2, Username := c.1.Username }))
        crowded ∧
    crowded.WellKeyed ∧
    getClientIdFromContext (scopeOf "token0") = ("token0", true) ∧
    (crowded.get "token0").isSome = true ∧
    (∃ s1, crowded.Deregister (scopeOf "token0") = Result.blocked s1) ∧
    ¬ ∃ r s1, crowded.Deregister (scopeOf "token0") = Result.ret r s1 := by
  have hsub : (manyCalls 101).Sublist (manyCalls 102) := by
    rw [manyCalls_succ]
    exact List.sublist_append_left _ _
  have hreach := registerAll_registered (manyCalls 101)
    ((hsub.map _).nodup manyCalls_names) ((hsub.map _).nodup manyCalls_ids)
    (by simp [manyCalls, chanCap])
  have hget : (crowded.get "token0").isSome = true := by decide
  obtain ⟨p, hp⟩ := Option.isSome_iff_exists.1 hget
  obtain ⟨e, _, _, _, hb⟩ := deregister_eq crowded (scopeOf "token0") "token0" p (by decide) hp
  have hfull : ¬ crowded.HasRoom :=
    registered_not_hasRoom (manyCalls 101) (by simp [manyCalls, chanCap])
  obtain ⟨s1, hs1⟩ := hb hfull
  refine ⟨hreach, registered_wellKeyed _, by decide, hget, ⟨s1, hs1⟩, ?_⟩
  rintro ⟨r, s2, h⟩
  rw [hs1] at h
  exact Result.noConfusion h

/-- C4, amended: for a call scope that carries the token `t` of a user in the map, in a registry
whose entries are keyed by their own token: when no presence channel of a user in the map is
full, `Deregister` returns, and in the state it leaves every object that the map pointed to
before the call, the one of `t` included, has exactly one more item at the tail of its presence
channel, the event `Add = false` with subject `(t, the display name of t)`, while its message
channel and its identity are as before and the objects the map did not point to are untouched;
the key `t` is deleted from the state that the broadcast leaves, so the object of `t` holds the
event and has no key.  When a presence channel of a user in the map is full, `Deregister` is
blocked at a send and does not return. -/
theorem C4_deregister_broadcast (s : GrpcBackend) (ctx : Context) (t : String)
    (hctx : getClientIdFromContext ctx = (t, true)) (ht : (s.get t).isSome = true)
    (hwk : s.WellKeyed) :
    ∃ p e, s.get t = some p ∧ s.onlineUsers[p]? = some e ∧ e.key = some t ∧
      (s.HasRoom →
        ∃ s1, s.Deregister ctx = Result.ret {} s1 ∧
          s1 = GrpcBackend.delete
            { onlineUsers :=
                s.onlineUsers.map (Entry.notified (leftEvent t e.user.proto.Username)) } t ∧
          s1.onlineUsers[p]? =
            some { key := none,
                   user := e.user.pushStatus (leftEvent t e.user.proto.Username) } ∧
          (∀ (q : Nat) (x : Entry), s.onlineUsers[q]? = some x →
            ∃ y : Entry, s1.onlineUsers[q]? = some y ∧
            y.user.proto = x.user.proto ∧ y.user.sendMessage = x.user.sendMessage ∧
            y.user.sendUserStatusUpdate =
              (if x.key.isSome then
                x.user.sendUserStatusUpdate ++ [leftEvent t e.user.proto.Username]
              else x.user.sendUserStatusUpdate) ∧
            y.key = (if x.key = some t then none else x.key))) ∧
      (¬ s.HasRoom → ∃ s1, s.Deregister ctx = Result.blocked s1) := by
  obtain ⟨p, hp⟩ := Option.isSome_iff_exists.1 ht
  obtain ⟨e, he, hk, h1, _⟩ := deregister_ret s ctx t p hctx hp hwk
  obtain ⟨e2, he2, _, _, h3⟩ := deregister_eq s ctx t p hctx hp
  refine ⟨p, e, hp, he, hk, ?_, h3⟩
  intro hroom
  refine ⟨_, h1 hroom, rfl, ?_, ?_⟩
  · simp [GrpcBackend.delete, List.getElem?_map, he, Entry.notified, hk]
  · intro q x hx
    simp only [GrpcBackend.delete, List.getElem?_map, hx, Option.map_some', Option.some.injEq,
      exists_eq_left']
    cases hxk : x.key with
    | none => simp [Entry.notified, hxk]
    | some k =>
      by_cases hkt : k = t
      · simp [Entry.notified, hxk, hkt, User.pushStatus]
      · simp [Entry.notified, hxk, hkt, User.pushStatus]

/-- C4 amended, at the registry of alice and bob, alice leaving: the call returns, and alice's
own object holds the Left event about alice and has no key. -/
theorem C4_deregister_broadcast_witness :
    ∃ p e, twoUsers.get "A" = some p ∧ twoUsers.onlineUsers[p]? = some e ∧
      e.key = some "A" ∧
      ∃ s1, twoUsers.Deregister (scopeOf "A") = Result.ret {} s1 ∧
        s1.onlineUsers[p]? =
          some { key := none,
                 user := e.user.pushStatus (leftEvent "A" e.user.proto.Username) } := by
  obtain ⟨p, e, hp, he, hk, h1, _⟩ :=
    C4_deregister_broadcast twoUsers (scopeOf "A") "A" (by decide) (by decide) (by decide)
  obtain ⟨s1, hs1, _, h2, _⟩ := h1 (by decide)
  exact ⟨p, e, hp, he, hk, s1, hs1, h2⟩

/-! ## Register with a new name (C5) -/

theorem notified_key (update : protos.UserStatusChange) (e : Entry) :
    (Entry.notified update e).key = e.key := by
  unfold Entry.notified
  split <;> rfl

theorem lookupPtr_map_key (f : Entry → Entry) (hf : ∀ e, (f e).key = e.key)
    (es : List Entry) (k : String) : lookupPtr (es.map f) k = lookupPtr es k := by
  induction es with
  | nil => rfl
  | cons e es ih => simp [lookupPtr, hf, ih]

theorem lookupPtr_append_new (es : List Entry) (k : String) (u : User)
    (h : lookupPtr es k = none) :
    lookupPtr (es ++ [{ key := some k, user := u }]) k = some es.length := by
  induction es with
  | nil => simp [lookupPtr]
  | cons e es ih =>
    by_cases hk : e.key = some k
    · simp [lookupPtr, hk] at h
    · simp only [lookupPtr, hk, if_false, Option.map_eq_none'] at h
      simp [lookupPtr, hk, ih h]

/-- C5: in a registry whose entries are keyed by their own token, for a name that no user in
the map holds and a token that is not a key of the map: whenever `Register` returns an
identity, it is `(newId, name)`, every object the map pointed to before the call has exactly
one more item at the tail of its presence channel, the event `Add = true` with subject
`(newId, name)`, nothing else has changed in the objects that were there, and the new user is
the one object added, under the key `newId`, with both channels empty; and `Register` does
return an identity when no presence channel is full. -/
theorem C5_register_broadcast (s : GrpcBackend) (request : protos.RegisterRequest)
    (newId : String) (hwk : s.WellKeyed) (hfresh : s.get newId = none)
    (hname : ∀ e ∈ s.active, e.user.proto.Username ≠ request.Username) :
    (∀ r s1, s.Register request newId = Result.ret r s1 →
      r = { Id := newId, Username := request.Username } ∧
      s1.onlineUsers =
        s.onlineUsers.map (Entry.notified (joinedEvent newId request.Username)) ++
          [{ key := some newId,
             user := { proto := { Id := newId, Username := request.Username },
                       sendMessage := [], sendUserStatusUpdate := [] } }] ∧
      s1.get newId = some s.onlineUsers.length ∧
      s1.deref s.onlineUsers.length =
        some { proto := { Id := newId, Username := request.Username },
               sendMessage := [], sendUserStatusUpdate := [] }) ∧
    (s.HasRoom →
      ∃ s1, s.Register request newId =
        Result.ret { Id := newId, Username := request.Username } s1) := by
  obtain ⟨h1, h2⟩ := register_eq s request newId hwk hfresh hname
  refine ⟨?_, fun hroom => ⟨_, h1 hroom⟩⟩
  intro r s1 hr
  by_cases hroom : s.HasRoom
  · rw [h1 hroom] at hr
    simp only [Result.ret.injEq] at hr
    obtain ⟨rfl, rfl⟩ := hr
    refine ⟨rfl, rfl, ?_, ?_⟩
    · have h3 : lookupPtr (s.onlineUsers.map
          (Entry.notified (joinedEvent newId request.Username))) newId = none := by
        rw [lookupPtr_map_key _ (notified_key _)]
        exact hfresh
      have h4 := lookupPtr_append_new _ newId (newUser newId request.Username) h3
      simpa [GrpcBackend.get] using h4
    · simp [GrpcBackend.deref, newUser]
  · obtain ⟨s2, h3⟩ := h2 hroom
    rw [h3] at hr
    exact Result.noConfusion hr

/-- C5 at the registry of alice and bob, carol registering with the token `C`. -/
theorem C5_register_broadcast_witness :
    (∀ r s1, twoUsers.Register { Username := "carol" } "C" = Result.ret r s1 →
      r = { Id := "C", Username := "carol" } ∧
      s1.onlineUsers =
        twoUsers.onlineUsers.map (Entry.notified (joinedEvent "C" "carol")) ++
          [{ key := some "C",
             user := { proto := { Id := "C", Username := "carol" },
                       sendMessage := [], sendUserStatusUpdate := [] } }] ∧
      s1.get "C" = some twoUsers.onlineUsers.length ∧
      s1.deref twoUsers.onlineUsers.length =
        some { proto := { Id := "C", Username := "carol" },
               sendMessage := [], sendUserStatusUpdate := [] }) ∧
    ∃ s1, twoUsers.Register { Username := "carol" } "C" =
      Result.ret { Id := "C", Username := "carol" } s1 :=
  ⟨(C5_register_broadcast twoUsers { Username := "carol" } "C" (by decide) (by decide)
      (by decide)).1,
    (C5_register_broadcast twoUsers { Username := "carol" } "C" (by decide) (by decide)
      (by decide)).2 (by decide)⟩

/-! ## SendDirectMessage (C6, C7) -/

/-- C6: when the receiver token of the request is not a key of the map, `SendDirectMessage`
returns the error "receiver not found" and no message, whatever the call scope of the sender,
and the state it leaves is the state it found: the same map, and every channel of every user
with the items it had. -/
theorem C6_send_unknown_receiver (s : GrpcBackend) (ctx : Context)
    (request : protos.NewMessage) (now : Nat) (h : s.get request.ReceiverId = none) :
    s.SendDirectMessage ctx request now = Result.err "receiver not found" s := by
  simp [GrpcBackend.SendDirectMessage, h]

/-- C6 at the registry of alice and bob, bob writing to the unknown token `Z`. -/
theorem C6_send_unknown_receiver_witness :
    twoUsers.get "Z" = none ∧
      twoUsers.SendDirectMessage (scopeOf "B") { ReceiverId := "Z", Message := "hi" } 0 =
        Result.err "receiver not found" twoUsers :=
  ⟨by decide,
    C6_send_unknown_receiver twoUsers (scopeOf "B") { ReceiverId := "Z", Message := "hi" } 0
      (by decide)⟩

/-- C7 fails when the receiver's message channel is full: in the registry of alice and bob
after bob has sent alice 100 messages that no stream has received, bob's scope carries his
token, both tokens are keys of the map, and the next `SendDirectMessage` from bob to alice does
not return: it is blocked at the send, the state as it was. -/
theorem C7_counterexample :
    getClientIdFromContext (scopeOf "B") = ("B", true) ∧
    (fullInbox.get "B").isSome = true ∧ (fullInbox.get "A").isSome = true ∧
    fullInbox.SendDirectMessage (scopeOf "B") { ReceiverId := "A", Message := "hi alice" } 0 =
      Result.blocked fullInbox := by
  decide

/-- C7, amended: for a call scope that carries the token `sender` of a user in the map and a
receiver token that is a key of the map, when the receiver's message channel holds fewer than
`chanCap = 100` items, `SendDirectMessage` returns the message with sender token `sender`, the
body of the request and the time of the call, and the state it leaves differs from the state it
found in one object alone, the receiver's, and there in the message channel alone, which has
that same message as one more item at its tail; when the channel is full the call is blocked
and the state is as it was. -/
theorem C7_send_delivers (s : GrpcBackend) (ctx : Context) (request : protos.NewMessage)
    (now : Nat) (sender : String)
    (hctx : getClientIdFromContext ctx = (sender, true))
    (hs : (s.get sender).isSome = true)
    (hr : (s.get request.ReceiverId).isSome = true) :
    ∃ p e, s.get request.ReceiverId = some p ∧ s.onlineUsers[p]? = some e ∧
      e.key = some request.ReceiverId ∧
      (e.user.sendMessage.length < chanCap →
        s.SendDirectMessage ctx request now =
          Result.ret { SenderId := sender, Message := request.Message, Time := now }
            { onlineUsers := s.onlineUsers.set p
                { e with user := { e.user with
                    sendMessage := e.user.sendMessage ++
                      [{ SenderId := sender, Message := request.Message, Time := now }] } } }) ∧
      (¬ e.user.sendMessage.length < chanCap →
        s.SendDirectMessage ctx request now = Result.blocked s) := by
  obtain ⟨p, hp⟩ := Option.isSome_iff_exists.1 hr
  obtain ⟨e, he, hk, _⟩ := get_bind_deref s _ p hp
  obtain ⟨q, hq⟩ := Option.isSome_iff_exists.1 hs
  obtain ⟨e2, _, _, h2⟩ := get_bind_deref s _ q hq
  refine ⟨p, e, hp, he, hk, ?_, ?_⟩
  · intro hlen
    simp [GrpcBackend.SendDirectMessage, hp, hctx, h2, he, chanSend, hlen]
  · intro hlen
    simp [GrpcBackend.SendDirectMessage, hp, hctx, h2, he, chanSend, hlen]

/-- C7 amended, at the registry of alice and bob, bob writing to alice: the call returns the
message and alice's message channel holds it. -/
theorem C7_send_delivers_witness :
    ∃ p e, twoUsers.get "A" = some p ∧ twoUsers.onlineUsers[p]? = some e ∧
      e.key = some "A" ∧ e.user.sendMessage.length < chanCap ∧
      twoUsers.SendDirectMessage (scopeOf "B") { ReceiverId := "A", Message := "hi alice" } 7 =
        Result.ret { SenderId := "B", Message := "hi alice", Time := 7 }
          { onlineUsers := twoUsers.onlineUsers.set p
              { e with user := { e.user with
                  sendMessage := e.user.sendMessage ++
                    [{ SenderId := "B", Message := "hi alice", Time := 7 }] } } } := by
  obtain ⟨p, e, hp, he, hk, h1, _⟩ :=
    C7_send_delivers twoUsers (scopeOf "B") { ReceiverId := "A", Message := "hi alice" } 7 "B"
      (by decide) (by decide) (by decide)
  have hp0 : p = 0 := by
    have h0 : twoUsers.get "A" = some 0 := by decide
    have h3 : twoUsers.get "A" = some p := hp
    rw [h0] at h3
    exact (Option.some.inj h3).symm
  subst hp0
  have hlen : e.user.sendMessage.length < chanCap := by
    have h0 : (twoUsers.onlineUsers[0]?).map (fun x => x.user.sendMessage.length) = some 0 := by
      decide
    rw [he] at h0
    simp only [Option.map_some', Option.some.injEq] at h0
    rw [h0]
    decide
  exact ⟨0, e, hp, he, hk, hlen, h1 hlen⟩

/-! ## The interceptors (C8, C9) -/

theorem validate_eq (s : GrpcBackend) (ctx : Context) :
    (∀ md c cs, ctx.incoming = some md → md.Get "client-id" = c :: cs →
      (s.get c).isSome = true →
      s.validateRequestMetadata ctx =
        (some (ctx.WithValue "client-id" (CtxValue.string c)), none)) ∧
    ((¬ ∃ md c cs, ctx.incoming = some md ∧ md.Get "client-id" = c :: cs ∧
        (s.get c).isSome = true) →
      s.validateRequestMetadata ctx = (none, some "verification failed")) := by
  constructor
  · intro md c cs hmd hget hact
    simp [GrpcBackend.validateRequestMetadata, metadata.FromIncomingContext, hmd, hget, hact]
  · intro hno
    cases hmd : ctx.incoming with
    | none => simp [GrpcBackend.validateRequestMetadata, metadata.FromIncomingContext, hmd]
    | some md =>
      cases hget : md.Get "client-id" with
      | nil =>
        simp [GrpcBackend.validateRequestMetadata, metadata.FromIncomingContext, hmd, hget]
      | cons c cs =>
        have hact : ¬ (s.get c).isSome = true := fun h => hno ⟨md, c, cs, hmd, hget, h⟩
        simp [GrpcBackend.validateRequestMetadata, metadata.FromIncomingContext, hmd, hget,
          hact]

theorem getClientId_withValue (ctx : Context) (c : String) :
    getClientIdFromContext (ctx.WithValue "client-id" (CtxValue.string c)) = (c, true) := by
  simp [getClientIdFromContext, Context.WithValue, Context.Value, List.lookup]

/-- What `UnaryServerInterceptor` does with a call that is not Register and whose metadata does
not carry the token of a user in the map: it faults, the handler not invoked. -/
theorem unaryServerInterceptor_fault {σ α ρ : Type} (s : GrpcBackend) (ctx : Context) (req : α)
    (info : grpc.UnaryServerInfo) (handler : Context → α → σ → Result σ ρ) (w : σ)
    (hmethod : info.FullMethod ≠ "/RegisterUser/Register")
    (hno : ¬ ∃ md c cs, ctx.incoming = some md ∧ md.Get "client-id" = c :: cs ∧
      (s.get c).isSome = true) :
    s.UnaryServerInterceptor ctx req info handler w = Result.panic w := by
  simp [GrpcBackend.UnaryServerInterceptor, hmethod, (validate_eq s ctx).2 hno]

/-- C8, the code at the failing inputs: for the method `/RegisterUser/List` in the registry of
alice and bob, `UnaryServerInterceptor` neither returns an error nor invokes the handler (the
count of invocations stays 0) but faults, on a context without metadata, on metadata without
a client id, and on the client id `Z` that is no user's token; on the same contexts
`StreamServerInterceptor` returns the error "verification failed". -/
theorem C8_unary_interceptor_faults :
    twoUsers.UnaryServerInterceptor noMetadata () { FullMethod := "/RegisterUser/List" }
      countingHandler 0 = Result.panic 0 ∧
    twoUsers.UnaryServerInterceptor { incoming := some [], values := [] } ()
      { FullMethod := "/RegisterUser/List" } countingHandler 0 = Result.panic 0 ∧
    twoUsers.UnaryServerInterceptor (incomingOf "Z") () { FullMethod := "/RegisterUser/List" }
      countingHandler 0 = Result.panic 0 ∧
    twoUsers.StreamServerInterceptor () { ctx := noMetadata, sent := [], broken := false }
      countingStreamHandler 0 = Result.err "verification failed" 0 ∧
    twoUsers.StreamServerInterceptor () { ctx := incomingOf "Z", sent := [], broken := false }
      countingStreamHandler 0 = Result.err "verification failed" 0 := by
  decide

/-- C9: `validateRequestMetadata` returns a nil error exactly when the incoming metadata holds
at least one value under `client-id` and the first one is a key of the map; it then returns the
context with that token bound, from which `getClientIdFromContext` reads the token with
`ok = true`, and `StreamServerInterceptor` invokes the handler once, on a stream whose
`Context()` is that context, and returns what the handler returns; in every other case it
returns a nil context and the error "verification failed", and `StreamServerInterceptor`
returns that error with the state of the handler untouched. -/
theorem C9_validate_request_metadata {σ α : Type} (s : GrpcBackend) (ctx : Context) :
    ((s.validateRequestMetadata ctx).2 = none ↔
      ∃ md c cs, ctx.incoming = some md ∧ md.Get "client-id" = c :: cs ∧
        (s.get c).isSome = true) ∧
    (∀ md c cs, ctx.incoming = some md → md.Get "client-id" = c :: cs →
      (s.get c).isSome = true →
      s.validateRequestMetadata ctx =
        (some (ctx.WithValue "client-id" (CtxValue.string c)), none) ∧
      getClientIdFromContext (ctx.WithValue "client-id" (CtxValue.string c)) = (c, true) ∧
      ∀ (srv : α) (sent : List protos.ServerUpdate) (broken : Bool)
        (handler : α → customServerStream → σ → Result σ Unit) (w : σ),
        s.StreamServerInterceptor srv { ctx := ctx, sent := sent, broken := broken } handler w =
          handler srv
            { ServerStream := { ctx := ctx, sent := sent, broken := broken },
              ctx := ctx.WithValue "client-id" (CtxValue.string c), md := md } w ∧
        customServerStream.Context
          { ServerStream := { ctx := ctx, sent := sent, broken := broken },
            ctx := ctx.WithValue "client-id" (CtxValue.string c), md := md } =
          ctx.WithValue "client-id" (CtxValue.string c)) ∧
    ((s.validateRequestMetadata ctx).2 ≠ none →
      s.validateRequestMetadata ctx = (none, some "verification failed") ∧
      ∀ (srv : α) (sent : List protos.ServerUpdate) (broken : Bool)
        (handler : α → customServerStream → σ → Result σ Unit) (w : σ),
        s.StreamServerInterceptor srv { ctx := ctx, sent := sent, broken := broken } handler w =
          Result.err "verification failed" w) := by
  obtain ⟨h1, h2⟩ := validate_eq s ctx
  have hiff : (s.validateRequestMetadata ctx).2 = none ↔
      ∃ md c cs, ctx.incoming = some md ∧ md.Get "client-id" = c :: cs ∧
        (s.get c).isSome = true := by
    constructor
    · intro h
      by_contra hno
      rw [h2 hno] at h
      simp at h
    · rintro ⟨md, c, cs, hmd, hget, hact⟩
      rw [h1 md c cs hmd hget hact]
  refine ⟨hiff, ?_, ?_⟩
  · intro md c cs hmd hget hact
    refine ⟨h1 md c cs hmd hget hact, getClientId_withValue ctx c, ?_⟩
    intro srv sent broken handler w
    refine ⟨?_, rfl⟩
    simp [GrpcBackend.StreamServerInterceptor, grpc.ServerStream.Context,
      h1 md c cs hmd hget hact, metadata.FromIncomingContext, hmd]
  · intro hne
    have hno := fun h => hne (hiff.2 h)
    refine ⟨h2 hno, ?_⟩
    intro srv sent broken handler w
    simp [GrpcBackend.StreamServerInterceptor, grpc.ServerStream.Context, h2 hno]

/-- C9 at the registry of alice and bob: metadata with alice's token passes and the counting
handler is invoked once; metadata with the unknown token `Z` is refused and the handler is not
invoked. -/
theorem C9_validate_request_metadata_witness :
    (twoUsers.validateRequestMetadata (incomingOf "A") =
        (some ((incomingOf "A").WithValue "client-id" (CtxValue.string "A")), none) ∧
      getClientIdFromContext ((incomingOf "A").WithValue "client-id" (CtxValue.string "A")) =
        ("A", true) ∧
      twoUsers.StreamServerInterceptor () { ctx := incomingOf "A", sent := [], broken := false }
        countingStreamHandler 0 = Result.ret () 1) ∧
    (twoUsers.validateRequestMetadata (incomingOf "Z") = (none, some "verification failed") ∧
      twoUsers.StreamServerInterceptor () { ctx := incomingOf "Z", sent := [], broken := false }
        countingStreamHandler 0 = Result.err "verification failed" 0) := by
  obtain ⟨_, h1, _⟩ := C9_validate_request_metadata twoUsers (incomingOf "A")
  obtain ⟨_, _, h2⟩ := C9_validate_request_metadata twoUsers (incomingOf "Z")
  obtain ⟨h3, h4, h5⟩ := h1 [("client-id", ["A"])] "A" [] rfl rfl (by decide)
  obtain ⟨h6, h7⟩ := h2 (by decide)
  exact ⟨⟨h3, h4, by rw [(h5 () [] false countingStreamHandler 0).1]; rfl⟩,
    h6, h7 () [] false countingStreamHandler 0⟩

/-! ## The update loop (C10) -/

/-- C10: an iteration of the loop of `GetUpdates` of the session with token `clientId`, whose
user object is at `p`: when the item the `select` receives is a presence event with
`Add = false` whose subject token is `clientId`, `GetUpdates` returns with a nil error at that
iteration, whatever the rest of the schedule; when the item is a message, or a presence event
whose subject token is not `clientId`, the iteration ends with the loop running and the loop
goes on with the next iteration of the schedule. -/
theorem C10_getUpdates_termination (clientId : String) (p : Nat) (pick : SelectCase)
    (picks : List SelectCase) (s : GrpcBackend) (server : customServerStream) (e : Entry)
    (he : s.onlineUsers[p]? = some e) :
    (∀ (c : protos.UserStatusChange) (u : User),
      GetUpdates.select e.user pick = some (Sum.inr c, u) →
      c.Changed.Id = clientId → c.Add = false →
      GetUpdates.iteration clientId (some p) pick s server =
        Iteration.returned none
          ({ onlineUsers := s.onlineUsers.set p { e with user := u } }, server) ∧
      GetUpdates.loop clientId (some p) (pick :: picks) s server =
        Iteration.returned none
          ({ onlineUsers := s.onlineUsers.set p { e with user := u } }, server)) ∧
    (∀ (m : protos.DirectMessage) (u : User),
      GetUpdates.select e.user pick = some (Sum.inl m, u) →
      GetUpdates.iteration clientId (some p) pick s server =
        Iteration.next
          ({ onlineUsers := s.onlineUsers.set p { e with user := u } },
            (server.Send (protos.ServerUpdate.IncomingMessage m)).1) ∧
      GetUpdates.loop clientId (some p) (pick :: picks) s server =
        GetUpdates.loop clientId (some p) picks
          { onlineUsers := s.onlineUsers.set p { e with user := u } }
          (server.Send (protos.ServerUpdate.IncomingMessage m)).1) ∧
    (∀ (c : protos.UserStatusChange) (u : User),
      GetUpdates.select e.user pick = some (Sum.inr c, u) →
      c.Changed.Id ≠ clientId →
      GetUpdates.iteration clientId (some p) pick s server =
        Iteration.next
          ({ onlineUsers := s.onlineUsers.set p { e with user := u } },
            (server.Send (protos.ServerUpdate.UserOnlineStatus c)).1) ∧
      GetUpdates.loop clientId (some p) (pick :: picks) s server =
        GetUpdates.loop clientId (some p) picks
          { onlineUsers := s.onlineUsers.set p { e with user := u } }
          (server.Send (protos.ServerUpdate.UserOnlineStatus c)).1) := by
  refine ⟨?_, ?_, ?_⟩
  · intro c u hsel hid _
    have hit : GetUpdates.iteration clientId (some p) pick s server =
        Iteration.returned none
          ({ onlineUsers := s.onlineUsers.set p { e with user := u } }, server) := by
      simp [GetUpdates.iteration, he, hsel, hid]
    exact ⟨hit, by simp [GetUpdates.loop, hit]⟩
  · intro m u hsel
    have hit : GetUpdates.iteration clientId (some p) pick s server =
        Iteration.next
          ({ onlineUsers := s.onlineUsers.set p { e with user := u } },
            (server.Send (protos.ServerUpdate.IncomingMessage m)).1) := by
      simp [GetUpdates.iteration, he, hsel]
    exact ⟨hit, by simp [GetUpdates.loop, hit]⟩
  · intro c u hsel hid
    have hit : GetUpdates.iteration clientId (some p) pick s server =
        Iteration.next
          ({ onlineUsers := s.onlineUsers.set p { e with user := u } },
            (server.Send (protos.ServerUpdate.UserOnlineStatus c)).1) := by
      simp [GetUpdates.iteration, he, hsel, hid]
    exact ⟨hit, by simp [GetUpdates.loop, hit]⟩

/-- C10 at alice's stream after she has deregistered: alone in the registry, the item received
is the Left event about herself and `GetUpdates` returns nil; with bob registered, the first
item received is the Joined event about bob and the loop goes on. -/
theorem C10_getUpdates_termination_witness :
    (GetUpdates.iteration "A" (some 0) SelectCase.sendUserStatusUpdate aliceAlone
        (streamOf "A") =
      Iteration.returned none
        ({ onlineUsers := aliceAlone.onlineUsers.set 0
            { key := none, user := newUser "A" "alice" } }, streamOf "A")) ∧
    (GetUpdates.loop "A" (some 0) [SelectCase.sendMessage, SelectCase.sendUserStatusUpdate]
        aliceLeft (streamOf "A") =
      GetUpdates.loop "A" (some 0) [SelectCase.sendUserStatusUpdate]
        { onlineUsers := aliceLeft.onlineUsers.set 0
            { key := none,
              user := { proto := { Id := "A", Username := "alice" }, sendMessage := [],
                        sendUserStatusUpdate := [leftEvent "A" "alice"] } } }
        ((streamOf "A").Send (protos.ServerUpdate.UserOnlineStatus (joinedEvent "B" "bob"))).1) :=
  ⟨((C10_getUpdates_termination "A" 0 SelectCase.sendUserStatusUpdate [] aliceAlone
      (streamOf "A")
      { key := none,
        user := { proto := { Id := "A", Username := "alice" }, sendMessage := [],
                  sendUserStatusUpdate := [leftEvent "A" "alice"] } }
      (by decide)).1 (leftEvent "A" "alice") (newUser "A" "alice")
      (by decide) (by decide) (by decide)).1,
   ((C10_getUpdates_termination "A" 0 SelectCase.sendMessage
      [SelectCase.sendUserStatusUpdate] aliceLeft (streamOf "A")
      { key := none,
        user := { proto := { Id := "A", Username := "alice" }, sendMessage := [],
                  sendUserStatusUpdate := [joinedEvent "B" "bob", leftEvent "A" "alice"] } }
      (by decide)).2.2 (joinedEvent "B" "bob")
      { proto := { Id := "A", Username := "alice" }, sendMessage := [],
        sendUserStatusUpdate := [leftEvent "A" "alice"] }
      (by decide) (by decide)).2⟩

/-! ## The session's own Left event (C11) -/

theorem send_unbroken (server : customServerStream) (u : protos.ServerUpdate)
    (h : server.ServerStream.broken = false) :
    (server.Send u).1.ServerStream.sent = server.ServerStream.sent ++ [u] ∧
      (server.Send u).1.ServerStream.broken = false := by
  cases server with
  | mk ss ctx md =>
    simp only at h
    simp [customServerStream.Send, grpc.ServerStream.Send, h]

theorem getElem?_set_entry (es : List Entry) (p : Nat) (e x : Entry)
    (he : es[p]? = some e) : (es.set p x)[p]? = some x := by
  have hlt : p < es.length := by
    rcases List.getElem?_eq_some.1 he with ⟨h, _⟩
    exact h
  exact List.getElem?_set_self hlt

/-- C11, the code at the failing input: in the registry of alice and bob, bob having sent alice
the messages `one` and `two`, alice's `GetUpdates` call holds the pointer 0 to her object and
its loop is running on a working stream.  Her loop receives `one`; her `Deregister` call
returns nil and leaves the Left event about alice at the tail of her presence channel, behind
the Joined event about bob; her loop then receives the Joined event, the message `two` and the
Left event, and returns.  Both channels are then empty, so every item has been received; the
stream has been passed `one`, the Joined event and `two`, in this order, and not the Left event
about alice, which is the one item received and not passed to `Send`. -/
theorem C11_own_left_not_delivered :
    twoLetters.get "A" = some 0 ∧
    (twoLetters.deref 0).map (fun u => (u.sendMessage, u.sendUserStatusUpdate)) =
      some
        ([{ SenderId := "B", Message := "one", Time := 1 },
          { SenderId := "B", Message := "two", Time := 2 }],
         [joinedEvent "B" "bob"]) ∧
    (System.run "A" 0 (aliceLeaves.take 1) aliceListening).s.Deregister (scopeOf "A") =
      Result.ret {} (System.run "A" 0 (aliceLeaves.take 2) aliceListening).s ∧
    ((System.run "A" 0 (aliceLeaves.take 2) aliceListening).s.deref 0).map
        (fun u => (u.sendMessage, u.sendUserStatusUpdate)) =
      some
        ([{ SenderId := "B", Message := "two", Time := 2 }],
         [joinedEvent "B" "bob", leftEvent "A" "alice"]) ∧
    (System.run "A" 0 (aliceLeaves.take 4) aliceListening).running = true ∧
    GetUpdates.iteration "A" (some 0) SelectCase.sendUserStatusUpdate
        (System.run "A" 0 (aliceLeaves.take 4) aliceListening).s
        (System.run "A" 0 (aliceLeaves.take 4) aliceListening).server =
      Iteration.returned none
        ((System.run "A" 0 aliceLeaves aliceListening).s,
          (System.run "A" 0 aliceLeaves aliceListening).server) ∧
    (System.run "A" 0 aliceLeaves aliceListening).running = false ∧
    ((System.run "A" 0 aliceLeaves aliceListening).s.deref 0).map
        (fun u => (u.sendMessage, u.sendUserStatusUpdate)) = some ([], []) ∧
    (System.run "A" 0 aliceLeaves aliceListening).server.ServerStream.sent =
      [protos.ServerUpdate.IncomingMessage { SenderId := "B", Message := "one", Time := 1 },
        protos.ServerUpdate.UserOnlineStatus (joinedEvent "B" "bob"),
        protos.ServerUpdate.IncomingMessage { SenderId := "B", Message := "two", Time := 2 }] ∧
    (System.run "A" 0 aliceLeaves aliceListening).dropped = [leftEvent "A" "alice"] ∧
    protos.ServerUpdate.UserOnlineStatus (leftEvent "A" "alice") ∉
      (System.run "A" 0 aliceLeaves aliceListening).server.ServerStream.sent := by
  refine ⟨by decide, by decide, by decide, by decide, by decide, by decide, by decide,
    by decide, by decide, by decide, by decide⟩

/-! ## A failed delivery (C12) -/

theorem send_broken (server : customServerStream) (u : protos.ServerUpdate)
    (h : server.ServerStream.broken = true) :
    server.Send u = (server, some "transport is closing") := by
  cases server with
  | mk ss ctx md =>
    simp only at h
    simp [customServerStream.Send, grpc.ServerStream.Send, h]

theorem select_message (u0 u : User) (pick : SelectCase) (m : protos.DirectMessage)
    (h : GetUpdates.select u0 pick = some (Sum.inl m, u)) :
    u0.sendMessage = m :: u.sendMessage ∧
      u.sendUserStatusUpdate = u0.sendUserStatusUpdate ∧ u.proto = u0.proto := by
  unfold GetUpdates.select at h
  split at h <;> simp only [Option.some.injEq, Prod.mk.injEq, Sum.inl.injEq, reduceCtorEq,
    false_and] at h
  all_goals
    obtain ⟨rfl, rfl⟩ := h
    rename_i hm _
    exact ⟨hm, rfl, rfl⟩

theorem select_status (u0 u : User) (pick : SelectCase) (c : protos.UserStatusChange)
    (h : GetUpdates.select u0 pick = some (Sum.inr c, u)) :
    u0.sendUserStatusUpdate = c :: u.sendUserStatusUpdate ∧
      u.sendMessage = u0.sendMessage ∧ u.proto = u0.proto := by
  unfold GetUpdates.select at h
  split at h <;> simp only [Option.some.injEq, Prod.mk.injEq, Sum.inr.injEq, reduceCtorEq,
    false_and] at h
  all_goals
    obtain ⟨rfl, rfl⟩ := h
    rename_i hc
    exact ⟨hc, rfl, rfl⟩

theorem select_none_iff (u : User) (pick : SelectCase) :
    GetUpdates.select u pick = none ↔ u.sendMessage = [] ∧ u.sendUserStatusUpdate = [] := by
  unfold GetUpdates.select
  split <;> simp_all

/-- An iteration of the loop of `GetUpdates` ends the loop in one case alone: the `select` has
received a presence event whose subject token is the session's own; the result is then nil. -/
theorem iteration_returned_iff (clientId : String) (p : Nat) (pick : SelectCase)
    (s : GrpcBackend) (server : customServerStream) (r : Option String)
    (st : GrpcBackend × customServerStream) :
    GetUpdates.iteration clientId (some p) pick s server = Iteration.returned r st ↔
      ∃ e c u, s.onlineUsers[p]? = some e ∧
        GetUpdates.select e.user pick = some (Sum.inr c, u) ∧ c.Changed.Id = clientId ∧
        r = none ∧ st = ({ onlineUsers := s.onlineUsers.set p { e with user := u } }, server) := by
  constructor
  · intro h
    unfold GetUpdates.iteration at h
    simp only at h
    split at h
    · exact Iteration.noConfusion h
    · rename_i e he
      split at h
      · exact Iteration.noConfusion h
      · exact Iteration.noConfusion h
      · rename_i c u hsel
        split at h
        · rename_i hid
          simp only [Iteration.returned.injEq] at h
          exact ⟨e, c, u, he, hsel, hid, h.1.symm, h.2.symm⟩
        · exact Iteration.noConfusion h
  · rintro ⟨e, c, u, he, hsel, hid, rfl, rfl⟩
    simp [GetUpdates.iteration, he, hsel, hid]

/-- The loop of `GetUpdates` returns in one case alone: after iterations that have left it
running, an iteration has received a presence event whose subject token is the session's own;
the result is then nil. -/
theorem loop_returned (clientId : String) (p : Nat) (picks : List SelectCase)
    (s : GrpcBackend) (server : customServerStream) (r : Option String)
    (st : GrpcBackend × customServerStream)
    (h : GetUpdates.loop clientId (some p) picks s server = Iteration.returned r st) :
    r = none ∧ ∃ pre pick post s0 server0 e c u,
      picks = pre ++ pick :: post ∧
      GetUpdates.loop clientId (some p) pre s server = Iteration.next (s0, server0) ∧
      s0.onlineUsers[p]? = some e ∧
      GetUpdates.select e.user pick = some (Sum.inr c, u) ∧ c.Changed.Id = clientId ∧
      st = ({ onlineUsers := s0.onlineUsers.set p { e with user := u } }, server0) := by
  induction picks generalizing s server with
  | nil => simp [GetUpdates.loop] at h
  | cons pick picks ih =>
    cases hit : GetUpdates.iteration clientId (some p) pick s server with
    | next st1 =>
      obtain ⟨s1, server1⟩ := st1
      have h1 : GetUpdates.loop clientId (some p) picks s1 server1 = Iteration.returned r st := by
        simpa [GetUpdates.loop, hit] using h
      obtain ⟨hr, pre, pick2, post, s0, server0, e, c, u, hp, hl, he, hsel, hid, hst⟩ :=
        ih s1 server1 h1
      refine ⟨hr, pick :: pre, pick2, post, s0, server0, e, c, u, ?_, ?_, he, hsel, hid, hst⟩
      · rw [hp]
        rfl
      · simpa [GetUpdates.loop, hit] using hl
    | returned r1 st1 =>
      have h1 : Iteration.returned r1 st1 = Iteration.returned r st := by
        simpa [GetUpdates.loop, hit] using h
      simp only [Iteration.returned.injEq] at h1
      obtain ⟨rfl, rfl⟩ := h1
      obtain ⟨e, c, u, he, hsel, hid, hr, hst⟩ :=
        (iteration_returned_iff clientId p pick s server r1 st1).1 hit
      exact ⟨hr, [], pick, picks, s, server, e, c, u, rfl, rfl, he, hsel, hid, hst⟩
    | waiting st1 =>
      simp [GetUpdates.loop, hit] at h
    | panic st1 =>
      simp [GetUpdates.loop, hit] at h

/-- An iteration of the loop of `GetUpdates` waits in one case alone: both channels of the
session are empty. -/
theorem iteration_waiting_iff (clientId : String) (p : Nat) (pick : SelectCase)
    (s : GrpcBackend) (server : customServerStream) (e : Entry)
    (he : s.onlineUsers[p]? = some e) :
    (∃ st, GetUpdates.iteration clientId (some p) pick s server = Iteration.waiting st) ↔
      e.user.sendMessage = [] ∧ e.user.sendUserStatusUpdate = [] := by
  rw [← select_none_iff e.user pick]
  constructor
  · rintro ⟨st, h⟩
    unfold GetUpdates.iteration at h
    simp only [he] at h
    split at h
    · assumption
    · exact Iteration.noConfusion h
    · split at h
      · exact Iteration.noConfusion h
      · exact Iteration.noConfusion h
  · intro hsel
    exact ⟨(s, server), by simp [GetUpdates.iteration, he, hsel]⟩

/-- C12 fails on a stream whose transport has failed: alice's message channel holds two
messages, `Send` of the first returns an error, and the loop of `GetUpdates`, run for two
iterations, has not returned but has gone on to receive the second message as well: both
channel items are taken, nothing is delivered and the loop is still running. -/
theorem C12_counterexample :
    ((brokenStreamOf "A").Send
      (protos.ServerUpdate.IncomingMessage
        { SenderId := "B", Message := "hi alice", Time := 0 })).2 =
      some "transport is closing" ∧
    (twoMessages.deref 0).map (fun u => u.sendMessage.length) = some 2 ∧
    GetUpdates.iteration "A" (some 0) SelectCase.sendMessage twoMessages (brokenStreamOf "A") =
      Iteration.next
        ((GetUpdates.iteration "A" (some 0) SelectCase.sendMessage twoMessages
          (brokenStreamOf "A")).state.1, brokenStreamOf "A") ∧
    ((GetUpdates.iteration "A" (some 0) SelectCase.sendMessage twoMessages
      (brokenStreamOf "A")).state.1.deref 0).map (fun u => u.sendMessage.length) = some 1 ∧
    ∃ s2, GetUpdates.loop "A" (some 0) [SelectCase.sendMessage, SelectCase.sendMessage]
        twoMessages (brokenStreamOf "A") = Iteration.next (s2, brokenStreamOf "A") ∧
      (s2.deref 0).map (fun u => u.sendMessage.length) = some 0 := by
  refine ⟨by decide, by decide, by decide, by decide, ?_⟩
  exact ⟨(GetUpdates.loop "A" (some 0) [SelectCase.sendMessage, SelectCase.sendMessage]
    twoMessages (brokenStreamOf "A")).state.1, by decide, by decide⟩

/-- C12, amended: on a stream whose transport has failed, for the session `clientId` whose
user object is at `p`.  The `select` receives nothing exactly when both channels are empty, and
the iteration then waits, the state as it was.  When it receives a message, or a presence event
whose subject token is not the session's own, the item is the head of its channel, `Send`
returns an error, the result is discarded and the iteration ends with the loop running, the
stream as it was and the rest of the channel in place: the loop goes on with the next
iteration of the schedule, which waits only if both channels are then empty and receives a
further item otherwise.  When it receives a presence event whose subject token is the
session's own, the iteration returns nil.  The loop returns in that last case alone: whenever
it returns, over any schedule, the result is nil, the iterations before the last have left the
loop running, and the last has received a presence event about the session's own token. -/
theorem C12_failed_delivery (clientId : String) (p : Nat) (pick : SelectCase)
    (picks : List SelectCase) (s : GrpcBackend) (server : customServerStream) (e : Entry)
    (he : s.onlineUsers[p]? = some e) (hbroken : server.ServerStream.broken = true) :
    (GetUpdates.select e.user pick = none ↔
      e.user.sendMessage = [] ∧ e.user.sendUserStatusUpdate = []) ∧
    (GetUpdates.select e.user pick = none →
      GetUpdates.iteration clientId (some p) pick s server = Iteration.waiting (s, server) ∧
      GetUpdates.loop clientId (some p) (pick :: picks) s server =
        Iteration.waiting (s, server)) ∧
    (∀ (m : protos.DirectMessage) (u : User),
      GetUpdates.select e.user pick = some (Sum.inl m, u) →
      e.user.sendMessage = m :: u.sendMessage ∧
      u.sendUserStatusUpdate = e.user.sendUserStatusUpdate ∧
      (server.Send (protos.ServerUpdate.IncomingMessage m)).2 ≠ none ∧
      GetUpdates.iteration clientId (some p) pick s server =
        Iteration.next ({ onlineUsers := s.onlineUsers.set p { e with user := u } }, server) ∧
      GetUpdates.loop clientId (some p) (pick :: picks) s server =
        GetUpdates.loop clientId (some p) picks
          { onlineUsers := s.onlineUsers.set p { e with user := u } } server ∧
      ∀ pick1 : SelectCase,
        (∃ st, GetUpdates.iteration clientId (some p) pick1
            { onlineUsers := s.onlineUsers.set p { e with user := u } } server =
              Iteration.waiting st) ↔
          u.sendMessage = [] ∧ u.sendUserStatusUpdate = []) ∧
    (∀ (c : protos.UserStatusChange) (u : User),
      GetUpdates.select e.user pick = some (Sum.inr c, u) →
      e.user.sendUserStatusUpdate = c :: u.sendUserStatusUpdate ∧
      u.sendMessage = e.user.sendMessage ∧
      (c.Changed.Id ≠ clientId →
        (server.Send (protos.ServerUpdate.UserOnlineStatus c)).2 ≠ none ∧
        GetUpdates.iteration clientId (some p) pick s server =
          Iteration.next
            ({ onlineUsers := s.onlineUsers.set p { e with user := u } }, server) ∧
        GetUpdates.loop clientId (some p) (pick :: picks) s server =
          GetUpdates.loop clientId (some p) picks
            { onlineUsers := s.onlineUsers.set p { e with user := u } } server ∧
        ∀ pick1 : SelectCase,
          (∃ st, GetUpdates.iteration clientId (some p) pick1
              { onlineUsers := s.onlineUsers.set p { e with user := u } } server =
                Iteration.waiting st) ↔
            u.sendMessage = [] ∧ u.sendUserStatusUpdate = []) ∧
      (c.Changed.Id = clientId →
        GetUpdates.iteration clientId (some p) pick s server =
          Iteration.returned none
            ({ onlineUsers := s.onlineUsers.set p { e with user := u } }, server))) ∧
    (∀ (schedule : List SelectCase) (r : Option String)
      (st : GrpcBackend × customServerStream),
      GetUpdates.loop clientId (some p) schedule s server = Iteration.returned r st →
      r = none ∧ ∃ pre pick1 post s0 server0 e0 c u,
        schedule = pre ++ pick1 :: post ∧
        GetUpdates.loop clientId (some p) pre s server = Iteration.next (s0, server0) ∧
        s0.onlineUsers[p]? = some e0 ∧
        GetUpdates.select e0.user pick1 = some (Sum.inr c, u) ∧ c.Changed.Id = clientId ∧
        st = ({ onlineUsers := s0.onlineUsers.set p { e0 with user := u } }, server0)) := by
  refine ⟨select_none_iff e.user pick, ?_, ?_, ?_, ?_⟩
  · intro hsel
    have hit : GetUpdates.iteration clientId (some p) pick s server =
        Iteration.waiting (s, server) := by
      simp [GetUpdates.iteration, he, hsel]
    exact ⟨hit, by simp [GetUpdates.loop, hit]⟩
  · intro m u hsel
    obtain ⟨h1, h2, _⟩ := select_message e.user u pick m hsel
    have hit : GetUpdates.iteration clientId (some p) pick s server =
        Iteration.next ({ onlineUsers := s.onlineUsers.set p { e with user := u } }, server) := by
      simp [GetUpdates.iteration, he, hsel, send_broken server _ hbroken]
    exact ⟨h1, h2, by simp [send_broken server _ hbroken], hit, by simp [GetUpdates.loop, hit],
      fun pick1 => iteration_waiting_iff clientId p pick1 _ server { e with user := u }
        (getElem?_set_entry s.onlineUsers p e _ he)⟩
  · intro c u hsel
    obtain ⟨h1, h2, _⟩ := select_status e.user u pick c hsel
    refine ⟨h1, h2, ?_, ?_⟩
    · intro hid
      have hit : GetUpdates.iteration clientId (some p) pick s server =
          Iteration.next
            ({ onlineUsers := s.onlineUsers.set p { e with user := u } }, server) := by
        simp [GetUpdates.iteration, he, hsel, hid, send_broken server _ hbroken]
      exact ⟨by simp [send_broken server _ hbroken], hit, by simp [GetUpdates.loop, hit],
        fun pick1 => iteration_waiting_iff clientId p pick1 _ server { e with user := u }
          (getElem?_set_entry s.onlineUsers p e _ he)⟩
    · intro hid
      simp [GetUpdates.iteration, he, hsel, hid]
  · intro schedule r st h
    exact loop_returned clientId p schedule s server r st h

/-- C12 amended, at alice's broken stream with two messages waiting: the first iteration
receives the first message, `Send` fails, and the loop is left running with the stream as it
was. -/
theorem C12_failed_delivery_witness :
    ((brokenStreamOf "A").Send
      (protos.ServerUpdate.IncomingMessage
        { SenderId := "B", Message := "hi alice", Time := 0 })).2 ≠ none ∧
    GetUpdates.iteration "A" (some 0) SelectCase.sendMessage twoMessages (brokenStreamOf "A") =
      Iteration.next
        ({ onlineUsers := twoMessages.onlineUsers.set 0
            { key := some "A",
              user := { proto := { Id := "A", Username := "alice" },
                        sendMessage := [{ SenderId := "B", Message := "hi alice", Time := 0 }],
                        sendUserStatusUpdate := [joinedEvent "B" "bob"] } } },
          brokenStreamOf "A") :=
  ⟨((C12_failed_delivery "A" 0 SelectCase.sendMessage [] twoMessages (brokenStreamOf "A")
      { key := some "A",
        user := { proto := { Id := "A", Username := "alice" },
                  sendMessage := [{ SenderId := "B", Message := "hi alice", Time := 0 },
                                  { SenderId := "B", Message := "hi alice", Time := 0 }],
                  sendUserStatusUpdate := [joinedEvent "B" "bob"] } }
      (by decide) (by decide)).2.2.1
      { SenderId := "B", Message := "hi alice", Time := 0 }
      { proto := { Id := "A", Username := "alice" },
        sendMessage := [{ SenderId := "B", Message := "hi alice", Time := 0 }],
        sendUserStatusUpdate := [joinedEvent "B" "bob"] }
      (by decide)).2.2.1,
   ((C12_failed_delivery "A" 0 SelectCase.sendMessage [] twoMessages (brokenStreamOf "A")
      { key := some "A",
        user := { proto := { Id := "A", Username := "alice" },
                  sendMessage := [{ SenderId := "B", Message := "hi alice", Time := 0 },
                                  { SenderId := "B", Message := "hi alice", Time := 0 }],
                  sendUserStatusUpdate := [joinedEvent "B" "bob"] } }
      (by decide) (by decide)).2.2.1
      { SenderId := "B", Message := "hi alice", Time := 0 }
      { proto := { Id := "A", Username := "alice" },
        sendMessage := [{ SenderId := "B", Message := "hi alice", Time := 0 }],
        sendUserStatusUpdate := [joinedEvent "B" "bob"] }
      (by decide)).2.2.2.1⟩

/-! ## What the calls leave in the channels -/

theorem extends_refl (e : Entry) : e.Extends e :=
  ⟨rfl, List.prefix_refl _, List.prefix_refl _⟩

theorem extends_trans (e e1 e2 : Entry) (h1 : e.Extends e1) (h2 : e1.Extends e2) :
    e.Extends e2 :=
  ⟨h2.1.trans h1.1, h1.2.1.trans h2.2.1, h1.2.2.trans h2.2.2⟩

theorem grows_refl (es : List Entry) : Grows es es :=
  fun _ e he => ⟨e, he, extends_refl e⟩

theorem grows_trans (es es1 es2 : List Entry) (h1 : Grows es es1) (h2 : Grows es1 es2) :
    Grows es es2 := by
  intro p e he
  obtain ⟨e1, he1, hx1⟩ := h1 p e he
  obtain ⟨e2, he2, hx2⟩ := h2 p e1 he1
  exact ⟨e2, he2, extends_trans e e1 e2 hx1 hx2⟩

theorem grows_cons (e e1 : Entry) (es es1 : List Entry) (h : e.Extends e1)
    (hs : Grows es es1) : Grows (e :: es) (e1 :: es1) := by
  intro p x hx
  cases p with
  | zero =>
    simp only [List.getElem?_cons_zero, Option.some.injEq] at hx
    subst hx
    exact ⟨e1, by simp, h⟩
  | succ p =>
    simp only [List.getElem?_cons_succ] at hx ⊢
    exact hs p x hx

theorem user_notify_extends (e : Entry) (u : User) (update : protos.UserStatusChange)
    (h : e.user.notify update = some u) : e.Extends { e with user := u } := by
  unfold User.notify at h
  split at h
  · rename_i ch hch
    simp only [Option.some.injEq] at h
    subst h
    unfold chanSend at hch
    split at hch
    · simp only [Option.some.injEq] at hch
      subst hch
      exact ⟨rfl, List.prefix_refl _, List.prefix_append _ _⟩
    · exact Option.noConfusion hch
  · exact Option.noConfusion h

theorem register_notify_grows (update : protos.UserStatusChange) (es : List Entry) :
    Grows es (Register.notify update es).state := by
  induction es with
  | nil => exact grows_refl _
  | cons e es ih =>
    unfold Register.notify
    split
    · split
      · rw [mapState_state]
        exact grows_cons e e es _ (extends_refl e) ih
      · split
        · exact grows_refl _
        · rename_i u hu
          rw [mapState_state]
          exact grows_cons e _ es _ (user_notify_extends e u update hu) ih
    · rw [mapState_state]
      exact grows_cons e e es _ (extends_refl e) ih

theorem deregister_notify_grows (update : protos.UserStatusChange) (es : List Entry) :
    Grows es (Deregister.notify update es).state := by
  induction es with
  | nil => exact grows_refl _
  | cons e es ih =>
    unfold Deregister.notify
    split
    · split
      · exact grows_refl _
      · rename_i u hu
        rw [mapState_state]
        exact grows_cons e _ es _ (user_notify_extends e u update hu) ih
    · rw [mapState_state]
      exact grows_cons e e es _ (extends_refl e) ih

theorem delete_grows (s : GrpcBackend) (k : String) :
    Grows s.onlineUsers (s.delete k).onlineUsers := by
  intro p e he
  simp only [GrpcBackend.delete, List.getElem?_map, he, Option.map_some', Option.some.injEq,
    exists_eq_left']
  split
  · exact ⟨rfl, List.prefix_refl _, List.prefix_refl _⟩
  · exact extends_refl e

theorem insert_grows (s : GrpcBackend) (k : String) (user : User) :
    Grows s.onlineUsers (s.insert k user).onlineUsers := by
  intro p e he
  obtain ⟨e1, he1, hx⟩ := delete_grows s k p e he
  refine ⟨e1, ?_, hx⟩
  have hlt : p < (s.delete k).onlineUsers.length := by
    rcases List.getElem?_eq_some.1 he1 with ⟨h, _⟩
    exact h
  simp only [GrpcBackend.insert]
  rw [List.getElem?_append_left hlt]
  exact he1

theorem set_grows (es : List Entry) (p : Nat) (e e1 : Entry) (he : es[p]? = some e)
    (hx : e.Extends e1) : Grows es (es.set p e1) := by
  intro q x hq
  by_cases hpq : p = q
  · subst hpq
    rw [he] at hq
    simp only [Option.some.injEq] at hq
    subst hq
    exact ⟨e1, getElem?_set_entry es p e e1 he, hx⟩
  · exact ⟨x, by rw [List.getElem?_set_ne hpq]; exact hq, extends_refl x⟩

/-- The state that `Register` leaves, however it ends. -/
theorem register_state (s : GrpcBackend) (request : protos.RegisterRequest) (newId : String) :
    (s.Register request newId).state =
      if Register.taken request.Username s.onlineUsers then s
      else
        { onlineUsers :=
            (Register.notify (joinedEvent newId request.Username)
              (s.insert newId (newUser newId request.Username)).onlineUsers).state } := by
  unfold GrpcBackend.Register
  split
  · rfl
  · simp only [joinedEvent, newUser]
    split <;> rename_i heq <;> rw [heq] <;> rfl

theorem deregister_finish_state (r : Result (List Entry) Unit) (k : String) :
    (match r with
      | Result.ret _ es =>
        (Result.ret {} (GrpcBackend.delete { onlineUsers := es } k) :
          Result GrpcBackend protos.Empty)
      | Result.err m es => Result.err m { onlineUsers := es }
      | Result.panic es => Result.panic { onlineUsers := es }
      | Result.blocked es => Result.blocked { onlineUsers := es }).state =
        { onlineUsers := r.state } ∨
    (match r with
      | Result.ret _ es =>
        (Result.ret {} (GrpcBackend.delete { onlineUsers := es } k) :
          Result GrpcBackend protos.Empty)
      | Result.err m es => Result.err m { onlineUsers := es }
      | Result.panic es => Result.panic { onlineUsers := es }
      | Result.blocked es => Result.blocked { onlineUsers := es }).state =
        GrpcBackend.delete { onlineUsers := r.state } k := by
  cases r <;> simp [Result.state]

/-- The state that `Deregister` leaves, however it ends. -/
theorem deregister_state (s : GrpcBackend) (ctx : Context) :
    (s.Deregister ctx).state = s ∨
    (∃ update, (s.Deregister ctx).state =
      { onlineUsers := (Deregister.notify update s.onlineUsers).state }) ∨
    (∃ update k, (s.Deregister ctx).state =
      GrpcBackend.delete { onlineUsers := (Deregister.notify update s.onlineUsers).state } k) := by
  unfold GrpcBackend.Deregister
  split
  · exact Or.inl rfl
  · split
    · exact Or.inl rfl
    · simp only
      rcases deregister_finish_state (Deregister.notify _ s.onlineUsers) _ with h | h
      · exact Or.inr (Or.inl ⟨_, h⟩)
      · exact Or.inr (Or.inr ⟨_, _, h⟩)

/-- The state that `SendDirectMessage` leaves, however it ends. -/
theorem sendDirectMessage_state (s : GrpcBackend) (ctx : Context)
    (request : protos.NewMessage) (now : Nat) :
    (s.SendDirectMessage ctx request now).state = s ∨
    ∃ p e m, s.onlineUsers[p]? = some e ∧
      (s.SendDirectMessage ctx request now).state =
        { onlineUsers := s.onlineUsers.set p
            { e with user := { e.user with sendMessage := e.user.sendMessage ++ [m] } } } := by
  unfold GrpcBackend.SendDirectMessage
  simp only
  split
  · exact Or.inl rfl
  · split
    · exact Or.inl rfl
    · split
      · exact Or.inl rfl
      · rename_i e he
        split
        · exact Or.inl rfl
        · rename_i ch hch
          unfold chanSend at hch
          split at hch
          · simp only [Option.some.injEq] at hch
            subst hch
            exact Or.inr ⟨_, e, _, he, rfl⟩
          · exact Option.noConfusion hch

theorem register_grows (s : GrpcBackend) (request : protos.RegisterRequest) (newId : String) :
    Grows s.onlineUsers (s.Register request newId).state.onlineUsers := by
  rw [register_state]
  split
  · exact grows_refl _
  · exact grows_trans _ _ _ (insert_grows s newId _) (register_notify_grows _ _)

theorem deregister_grows (s : GrpcBackend) (ctx : Context) :
    Grows s.onlineUsers (s.Deregister ctx).state.onlineUsers := by
  rcases deregister_state s ctx with h | ⟨update, h⟩ | ⟨update, k, h⟩
  · rw [h]
    exact grows_refl _
  · rw [h]
    exact deregister_notify_grows _ _
  · rw [h]
    exact grows_trans _ _ _ (deregister_notify_grows update _) (delete_grows _ k)

theorem sendDirectMessage_grows (s : GrpcBackend) (ctx : Context)
    (request : protos.NewMessage) (now : Nat) :
    Grows s.onlineUsers (s.SendDirectMessage ctx request now).state.onlineUsers := by
  rcases sendDirectMessage_state s ctx request now with h | ⟨p, e, m, he, h⟩
  · rw [h]
    exact grows_refl _
  · rw [h]
    exact set_grows _ p e _ he ⟨rfl, List.prefix_append _ _, List.prefix_refl _⟩

/-! ## The order of delivery (C13) -/

theorem messageLog_eq (p : Nat) (σ : System) (e : Entry) (he : σ.s.onlineUsers[p]? = some e) :
    σ.messageLog p = σ.deliveredMessages ++ e.user.sendMessage := by
  simp [System.messageLog, GrpcBackend.deref, he]

theorem statusLog_eq (p : Nat) (σ : System) (e : Entry) (he : σ.s.onlineUsers[p]? = some e) :
    σ.statusLog p = σ.deliveredStatus ++ σ.dropped ++ e.user.sendUserStatusUpdate := by
  simp [System.statusLog, GrpcBackend.deref, he]

/-- The invariant of the runs: the object at `p` exists, the transport works, and nothing has
been dropped while the loop is running. -/
theorem logs_of_grows (p : Nat) (σ : System) (s1 : GrpcBackend) (e : Entry)
    (he : σ.s.onlineUsers[p]? = some e) (hg : Grows σ.s.onlineUsers s1.onlineUsers) :
    (∃ e1, s1.onlineUsers[p]? = some e1) ∧
      σ.messageLog p <+: System.messageLog p { σ with s := s1 } ∧
      σ.statusLog p <+: System.statusLog p { σ with s := s1 } := by
  obtain ⟨e1, he1, hx⟩ := hg p e he
  refine ⟨⟨e1, he1⟩, ?_, ?_⟩
  · rw [messageLog_eq p σ e he, messageLog_eq p { σ with s := s1 } e1 he1]
    exact (List.prefix_append_right_inj _).2 hx.2.1
  · rw [statusLog_eq p σ e he, statusLog_eq p { σ with s := s1 } e1 he1]
    exact (List.prefix_append_right_inj _).2 hx.2.2

theorem iteration_other (clientId : String) (q p : Nat) (pick : SelectCase) (s : GrpcBackend)
    (server : customServerStream) (hqp : q ≠ p) :
    (GetUpdates.iteration clientId (some q) pick s server).state.1.onlineUsers[p]? =
      s.onlineUsers[p]? := by
  unfold GetUpdates.iteration
  simp only
  split
  · rfl
  · split
    · rfl
    · simp only [Iteration.state, List.getElem?_set_ne hqp]
    · split
      · simp only [Iteration.state, List.getElem?_set_ne hqp]
      · simp only [Iteration.state, List.getElem?_set_ne hqp]

theorem step_logs (clientId : String) (p : Nat) (step : Step) (σ : System) (e : Entry)
    (he : σ.s.onlineUsers[p]? = some e) (hb : σ.server.ServerStream.broken = false)
    (hd : σ.running = true → σ.dropped = []) :
    (∃ e1, (System.step clientId p step σ).s.onlineUsers[p]? = some e1) ∧
      (System.step clientId p step σ).server.ServerStream.broken = false ∧
      ((System.step clientId p step σ).running = true →
        (System.step clientId p step σ).dropped = []) ∧
      σ.messageLog p <+: (System.step clientId p step σ).messageLog p ∧
      σ.statusLog p <+: (System.step clientId p step σ).statusLog p := by
  cases step with
  | register request newId =>
    obtain ⟨h1, h2, h3⟩ := logs_of_grows p σ _ e he (register_grows σ.s request newId)
    exact ⟨h1, hb, hd, h2, h3⟩
  | deregister ctx =>
    obtain ⟨h1, h2, h3⟩ := logs_of_grows p σ _ e he (deregister_grows σ.s ctx)
    exact ⟨h1, hb, hd, h2, h3⟩
  | send ctx request now =>
    obtain ⟨h1, h2, h3⟩ :=
      logs_of_grows p σ _ e he (sendDirectMessage_grows σ.s ctx request now)
    exact ⟨h1, hb, hd, h2, h3⟩
  | other clientId2 q pick server2 =>
    by_cases hqp : q = p
    · simp only [System.step, hqp, if_true]
      exact ⟨⟨e, he⟩, hb, hd, List.prefix_refl _, List.prefix_refl _⟩
    · have hsame := iteration_other clientId2 q p pick σ.s server2 hqp
      simp only [System.step, hqp, if_false]
      refine ⟨⟨e, by rw [hsame]; exact he⟩, hb, hd, ?_, ?_⟩
      · simp [System.messageLog, System.deliveredMessages, GrpcBackend.deref, hsame]
      · simp [System.statusLog, System.deliveredStatus, GrpcBackend.deref, hsame]
  | receive pick =>
    cases hrun : σ.running with
    | false =>
      simp only [System.step, hrun, Bool.false_eq_true, if_false]
      exact ⟨⟨e, he⟩, hb, by simp [hrun], List.prefix_refl _, List.prefix_refl _⟩
    | true =>
      have hdrop := hd hrun
      cases hsel : GetUpdates.select e.user pick with
      | none =>
        have hstep : System.step clientId p (Step.receive pick) σ = σ := by
          simp only [System.step, hrun, if_true, GetUpdates.iteration, he, hsel]
        rw [hstep]
        exact ⟨⟨e, he⟩, hb, hd, List.prefix_refl _, List.prefix_refl _⟩
      | some r =>
        obtain ⟨item, u⟩ := r
        have hset := getElem?_set_entry σ.s.onlineUsers p e { e with user := u } he
        cases item with
        | inl m =>
          obtain ⟨hm, hs, _⟩ := select_message e.user u pick m hsel
          obtain ⟨hsent, hb1⟩ := send_unbroken σ.server (protos.ServerUpdate.IncomingMessage m) hb
          simp only [System.step, hrun, if_true, GetUpdates.iteration, he, hsel]
          refine ⟨⟨_, hset⟩, hb1, fun _ => hdrop, ?_, ?_⟩
          · rw [messageLog_eq p σ e he, messageLog_eq p _ _ hset]
            simp [System.deliveredMessages, hsent, hm,
              protos.ServerUpdate.GetIncomingMessage]
          · rw [statusLog_eq p σ e he, statusLog_eq p _ _ hset]
            simp [System.deliveredStatus, hsent, hs,
              protos.ServerUpdate.GetUserOnlineStatus]
        | inr c =>
          obtain ⟨hc, hs, _⟩ := select_status e.user u pick c hsel
          by_cases hid : c.Changed.Id = clientId
          · simp only [System.step, hrun, if_true, GetUpdates.iteration, he, hsel, hid]
            refine ⟨⟨_, hset⟩, hb, by simp, ?_, ?_⟩
            · rw [messageLog_eq p σ e he, messageLog_eq p _ _ hset]
              simp [System.deliveredMessages, hs]
            · rw [statusLog_eq p σ e he, statusLog_eq p _ _ hset]
              simp [System.deliveredStatus, GrpcBackend.deref, he, hc, hdrop]
          · obtain ⟨hsent, hb1⟩ :=
              send_unbroken σ.server (protos.ServerUpdate.UserOnlineStatus c) hb
            simp only [System.step, hrun, if_true, GetUpdates.iteration, he, hsel, hid,
              if_false]
            refine ⟨⟨_, hset⟩, hb1, fun _ => hdrop, ?_, ?_⟩
            · rw [messageLog_eq p σ e he, messageLog_eq p _ _ hset]
              simp [System.deliveredMessages, hsent, hs,
                protos.ServerUpdate.GetIncomingMessage]
            · rw [statusLog_eq p σ e he, statusLog_eq p _ _ hset]
              simp [System.deliveredStatus, hsent, hc, hdrop,
                protos.ServerUpdate.GetUserOnlineStatus]

theorem run_logs (clientId : String) (p : Nat) (steps : List Step) (σ : System) (e : Entry)
    (he : σ.s.onlineUsers[p]? = some e) (hb : σ.server.ServerStream.broken = false)
    (hd : σ.running = true → σ.dropped = []) :
    σ.messageLog p <+: (System.run clientId p steps σ).messageLog p ∧
      σ.statusLog p <+: (System.run clientId p steps σ).statusLog p := by
  induction steps generalizing σ e with
  | nil => exact ⟨List.prefix_refl _, List.prefix_refl _⟩
  | cons step steps ih =>
    obtain ⟨⟨e1, he1⟩, hb1, hd1, h1, h2⟩ := step_logs clientId p step σ e he hb hd
    obtain ⟨h3, h4⟩ := ih (System.step clientId p step σ) e1 he1 hb1 hd1
    exact ⟨h1.trans h3, h2.trans h4⟩

theorem iteration_broken (clientId : String) (user : Option Nat) (pick : SelectCase)
    (s : GrpcBackend) (server : customServerStream)
    (hb : server.ServerStream.broken = true) :
    (GetUpdates.iteration clientId user pick s server).state.2 = server := by
  unfold GetUpdates.iteration
  split
  · rfl
  · split
    · rfl
    · split
      · rfl
      · simp only [Iteration.state, send_broken server _ hb]
      · simp only
        split
        · rfl
        · simp only [Iteration.state, send_broken server _ hb]

theorem step_broken (clientId : String) (p : Nat) (step : Step) (σ : System)
    (hb : σ.server.ServerStream.broken = true) :
    (System.step clientId p step σ).server = σ.server := by
  cases step with
  | register request newId => rfl
  | deregister ctx => rfl
  | send ctx request now => rfl
  | other clientId2 q pick server2 =>
    simp only [System.step]
    split <;> rfl
  | receive pick =>
    have h := iteration_broken clientId (some p) pick σ.s σ.server hb
    simp only [System.step]
    split
    · split
      · rename_i heq
        rw [heq] at h
        exact h
      · rename_i heq
        rw [heq] at h
        exact h
      · rfl
      · rfl
    · rfl

theorem run_broken (clientId : String) (p : Nat) (steps : List Step) (σ : System)
    (hb : σ.server.ServerStream.broken = true) :
    (System.run clientId p steps σ).server = σ.server := by
  induction steps generalizing σ with
  | nil => rfl
  | cons step steps ih =>
    have h1 := step_broken clientId p step σ hb
    simp only [System.run]
    rw [ih _ (by rw [h1]; exact hb), h1]

theorem send_ret_state (s s1 : GrpcBackend) (ctx : Context) (request : protos.NewMessage)
    (now : Nat) (m : protos.DirectMessage) (p : Nat)
    (h : s.SendDirectMessage ctx request now = Result.ret m s1)
    (hp : s.get request.ReceiverId = some p) :
    ∃ e, s.onlineUsers[p]? = some e ∧
      s1 = { onlineUsers := s.onlineUsers.set p
              { e with user := { e.user with sendMessage := e.user.sendMessage ++ [m] } } } := by
  unfold GrpcBackend.SendDirectMessage at h
  simp only [hp] at h
  split at h
  · exact Result.noConfusion h
  · split at h
    · exact Result.noConfusion h
    · rename_i e he
      split at h
      · exact Result.noConfusion h
      · rename_i ch hch
        unfold chanSend at hch
        split at hch
        · simp only [Option.some.injEq] at hch
          subst hch
          simp only [Result.ret.injEq] at h
          obtain ⟨rfl, rfl⟩ := h
          exact ⟨e, he, rfl⟩
        · exact Option.noConfusion hch

theorem fifo_of_prefix {α : Type} (log delivered pending : List α)
    (h : log <+: delivered ++ pending) (i j : Nat) (a b : α) (hij : i < j)
    (ha : log[i]? = some a) (hb : log[j]? = some b) (hj : j < delivered.length) :
    delivered[i]? = some a ∧ delivered[j]? = some b := by
  obtain ⟨t, ht⟩ := h
  have hjl : j < log.length := by
    rcases List.getElem?_eq_some.1 hb with ⟨h1, _⟩
    exact h1
  have key : ∀ k, k < log.length → k < delivered.length → delivered[k]? = log[k]? := by
    intro k hk1 hk2
    have h1 : (log ++ t)[k]? = log[k]? := List.getElem?_append_left hk1
    have h2 : (delivered ++ pending)[k]? = delivered[k]? := List.getElem?_append_left hk2
    rw [← h1, ht, h2]
  exact ⟨by rw [key i (by omega) (by omega), ha], by rw [key j hjl hj, hb]⟩

/-- C13: for the `GetUpdates` call of a session whose user object is at `p`, and every
interleaving of `Register`, `Deregister` and `SendDirectMessage` calls (however they end) with
iterations of the loop of this call, whatever the `select` picks, and with iterations of the
loops of other sessions: a `SendDirectMessage` that returns puts its message at the tail of the
message log of the session (the messages delivered on its stream, then those waiting in its
channel); on a working stream the message log and the presence log only ever grow at the tail;
and two messages that stand in the log in the order `m1`, `m2` stand in the same order, at the
same positions, among the messages delivered on the stream as soon as `m2` has been delivered,
and the same holds for two presence events. -/
theorem C13_fifo_delivery (clientId : String) (p : Nat) (s : GrpcBackend)
    (server : customServerStream) (e : Entry) (steps : List Step)
    (he : s.onlineUsers[p]? = some e) :
    (∀ (ctx : Context) (request : protos.NewMessage) (now : Nat) (m : protos.DirectMessage)
      (s1 : GrpcBackend),
      s.SendDirectMessage ctx request now = Result.ret m s1 →
      s.get request.ReceiverId = some p →
      System.messageLog p { s := s1, server := server, running := true, dropped := [] } =
        System.messageLog p { s := s, server := server, running := true, dropped := [] } ++
          [m]) ∧
    (server.ServerStream.broken = false →
      System.messageLog p { s := s, server := server, running := true, dropped := [] } <+:
        (System.run clientId p steps
          { s := s, server := server, running := true, dropped := [] }).messageLog p ∧
      System.statusLog p { s := s, server := server, running := true, dropped := [] } <+:
        (System.run clientId p steps
          { s := s, server := server, running := true, dropped := [] }).statusLog p) ∧
    (∀ (i j : Nat) (m1 m2 : protos.DirectMessage), i < j →
      (System.messageLog p
        { s := s, server := server, running := true, dropped := [] })[i]? = some m1 →
      (System.messageLog p
        { s := s, server := server, running := true, dropped := [] })[j]? = some m2 →
      j < (System.run clientId p steps
        { s := s, server := server, running := true,
          dropped := [] }).deliveredMessages.length →
      (System.run clientId p steps
        { s := s, server := server, running := true,
          dropped := [] }).deliveredMessages[i]? = some m1 ∧
      (System.run clientId p steps
        { s := s, server := server, running := true,
          dropped := [] }).deliveredMessages[j]? = some m2) ∧
    (∀ (i j : Nat) (c1 c2 : protos.UserStatusChange), i < j →
      (System.statusLog p
        { s := s, server := server, running := true, dropped := [] })[i]? = some c1 →
      (System.statusLog p
        { s := s, server := server, running := true, dropped := [] })[j]? = some c2 →
      j < (System.run clientId p steps
        { s := s, server := server, running := true, dropped := [] }).deliveredStatus.length →
      (System.run clientId p steps
        { s := s, server := server, running := true,
          dropped := [] }).deliveredStatus[i]? = some c1 ∧
      (System.run clientId p steps
        { s := s, server := server, running := true,
          dropped := [] }).deliveredStatus[j]? = some c2) := by
  have hsend : ∀ (ctx : Context) (request : protos.NewMessage) (now : Nat)
      (m : protos.DirectMessage) (s1 : GrpcBackend),
      s.SendDirectMessage ctx request now = Result.ret m s1 →
      s.get request.ReceiverId = some p →
      System.messageLog p { s := s1, server := server, running := true, dropped := [] } =
        System.messageLog p { s := s, server := server, running := true, dropped := [] } ++
          [m] := by
    intro ctx request now m s1 hret hp
    obtain ⟨e1, he1, rfl⟩ := send_ret_state s s1 ctx request now m p hret hp
    rw [messageLog_eq p { s := s, server := server, running := true, dropped := [] } e1 he1,
      messageLog_eq p
        { s := GrpcBackend.mk (s.onlineUsers.set p
            { e1 with user := { e1.user with sendMessage := e1.user.sendMessage ++ [m] } }),
          server := server, running := true, dropped := [] }
        _ (getElem?_set_entry _ p e1 _ he1)]
    simp [System.deliveredMessages]
  cases hbroken : server.ServerStream.broken with
  | false =>
    obtain ⟨h1, h2⟩ := run_logs clientId p steps
      { s := s, server := server, running := true, dropped := [] } e he hbroken (fun _ => rfl)
    refine ⟨hsend, fun _ => ⟨h1, h2⟩, ?_, ?_⟩
    · intro i j m1 m2 hij hm1 hm2 hj
      exact fifo_of_prefix _ _ _ h1 i j m1 m2 hij hm1 hm2 hj
    · intro i j c1 c2 hij hc1 hc2 hj
      have heq : (System.run clientId p steps
          { s := s, server := server, running := true, dropped := [] }).statusLog p =
          (System.run clientId p steps
            { s := s, server := server, running := true, dropped := [] }).deliveredStatus ++
            ((System.run clientId p steps
              { s := s, server := server, running := true, dropped := [] }).dropped ++
            (((System.run clientId p steps
              { s := s, server := server, running := true, dropped := [] }).s.deref p).map
                (fun u => u.sendUserStatusUpdate)).getD []) := by
        rw [System.statusLog, List.append_assoc]
      have h3 := h2
      rw [heq] at h3
      exact fifo_of_prefix _ _ _ h3 i j c1 c2 hij hc1 hc2 hj
  | true =>
    have hsame := run_broken clientId p steps
      { s := s, server := server, running := true, dropped := [] } hbroken
    refine ⟨hsend, fun h => Bool.noConfusion h, ?_, ?_⟩
    · intro i j m1 m2 hij hm1 hm2 hj
      simp only [System.deliveredMessages, hsame] at hj ⊢
      exact fifo_of_prefix _ _ _ (List.prefix_refl _) i j m1 m2 hij hm1 hm2 hj
    · intro i j c1 c2 hij hc1 hc2 hj
      simp only [System.deliveredStatus, hsame] at hj ⊢
      have hc1a := hc1
      have hc2a := hc2
      simp only [System.statusLog, System.deliveredStatus, List.append_nil] at hc1a hc2a
      exact fifo_of_prefix _ _ _ (List.prefix_refl _) i j c1 c2 hij hc1a hc2a hj

/-- C13 at alice's stream in the registry where bob has sent her `one` and then `two`: after an
iteration that takes the waiting presence event and two that take messages, `one` is the first
message delivered and `two` the second. -/
theorem C13_fifo_delivery_witness :
    (System.run "A" 0
      [Step.receive SelectCase.sendUserStatusUpdate, Step.receive SelectCase.sendMessage,
        Step.receive SelectCase.sendMessage]
      { s := twoLetters, server := streamOf "A", running := true,
        dropped := [] }).deliveredMessages[0]? =
        some { SenderId := "B", Message := "one", Time := 1 } ∧
    (System.run "A" 0
      [Step.receive SelectCase.sendUserStatusUpdate, Step.receive SelectCase.sendMessage,
        Step.receive SelectCase.sendMessage]
      { s := twoLetters, server := streamOf "A", running := true,
        dropped := [] }).deliveredMessages[1]? =
        some { SenderId := "B", Message := "two", Time := 2 } :=
  (C13_fifo_delivery "A" 0 twoLetters (streamOf "A")
    { key := some "A",
      user := { proto := { Id := "A", Username := "alice" },
                sendMessage := [{ SenderId := "B", Message := "one", Time := 1 },
                                { SenderId := "B", Message := "two", Time := 2 }],
                sendUserStatusUpdate := [joinedEvent "B" "bob"] } }
    [Step.receive SelectCase.sendUserStatusUpdate, Step.receive SelectCase.sendMessage,
      Step.receive SelectCase.sendMessage]
    (by decide)).2.2.1 0 1
    { SenderId := "B", Message := "one", Time := 1 }
    { SenderId := "B", Message := "two", Time := 2 }
    (by decide) (by decide) (by decide) (by decide)

/-! ## Deregister with an unknown token (C14) -/

/-- What `Deregister` does with a call scope that carries no client id. -/
theorem deregister_no_client_id (s : GrpcBackend) (ctx : Context)
    (h : (getClientIdFromContext ctx).2 = false) :
    s.Deregister ctx = Result.err "user not found" s := by
  unfold GrpcBackend.Deregister
  split
  · rfl
  · rename_i heq
    rw [heq] at h
    exact Bool.noConfusion h

/-- What `Deregister` does with a call scope whose client id is not a key of the map. -/
theorem deregister_unknown_client_id (s : GrpcBackend) (ctx : Context) (t : String)
    (hctx : getClientIdFromContext ctx = (t, true)) (h : s.get t = none) :
    s.Deregister ctx = Result.panic s := by
  simp [GrpcBackend.Deregister, hctx, h]

/-- The loop of `Deregister` ends in one of two ways: it returns, or it blocks on a full
channel. -/
theorem deregister_notify_cases (update : protos.UserStatusChange) (es : List Entry) :
    (∃ es1, Deregister.notify update es = Result.ret () es1) ∨
      (∃ es1, Deregister.notify update es = Result.blocked es1) := by
  induction es with
  | nil => exact Or.inl ⟨[], rfl⟩
  | cons e es ih =>
    unfold Deregister.notify
    split
    · split
      · exact Or.inr ⟨_, rfl⟩
      · rcases ih with ⟨es1, h⟩ | ⟨es1, h⟩
        · exact Or.inl ⟨_, by rw [h]; rfl⟩
        · exact Or.inr ⟨_, by rw [h]; rfl⟩
    · rcases ih with ⟨es1, h⟩ | ⟨es1, h⟩
      · exact Or.inl ⟨_, by rw [h]; rfl⟩
      · exact Or.inr ⟨_, by rw [h]; rfl⟩

/-- When `Deregister` returns an error, the call scope carries no client id, the error is "user
not found", and the state is as it was. -/
theorem deregister_err (s : GrpcBackend) (ctx : Context) (m : String) (s1 : GrpcBackend)
    (h : s.Deregister ctx = Result.err m s1) :
    (getClientIdFromContext ctx).2 = false ∧ m = "user not found" ∧ s1 = s := by
  unfold GrpcBackend.Deregister at h
  split at h
  · rename_i heq
    simp only [Result.err.injEq] at h
    exact ⟨by rw [heq], h.1.symm, h.2.symm⟩
  · split at h
    · exact Result.noConfusion h
    · rename_i userToDelete _
      rcases deregister_notify_cases
        { Changed := { Id := userToDelete.proto.Id, Username := userToDelete.proto.Username },
          Add := false } s.onlineUsers with ⟨es1, h1⟩ | ⟨es1, h1⟩
      · simp [h1] at h
      · simp [h1] at h

/-- C14 fails at the registry of alice and bob: for a call scope that carries the client id
`Z`, which is no user's token, `Deregister` does not return the error "user not found" but
faults, at the read of `s.onlineUsers[clientId].proto` of line 28. -/
theorem C14_counterexample :
    getClientIdFromContext (scopeOf "Z") = ("Z", true) ∧
    twoUsers.get "Z" = none ∧
    twoUsers.Deregister (scopeOf "Z") = Result.panic twoUsers ∧
    twoUsers.Deregister (scopeOf "Z") ≠ Result.err "user not found" twoUsers := by
  decide

/-- C14, amended: `Deregister` returns the error "user not found", a normal error result with
the registry and all channels as they were, when the call scope carries no client id, and
whenever it returns an error that is the case.  Behind `UnaryServerInterceptor`, for a method
other than Register, a call goes one of two ways.  Either the first `client-id` value `c` of the
incoming metadata is a key of the map: the interceptor binds it, `Deregister` is invoked with
the scope that carries `c`, and it returns nil when no presence channel is full and blocks when
one is.  Or validation fails: the interceptor invokes no handler, whatever the handler is, so
`Deregister` is not reached with a client id that is no user's token. -/
theorem C14_deregister_not_found (s : GrpcBackend) (ctx : Context) :
    ((getClientIdFromContext ctx).2 = false →
      s.Deregister ctx = Result.err "user not found" s) ∧
    (∀ (m : String) (s1 : GrpcBackend), s.Deregister ctx = Result.err m s1 →
      (getClientIdFromContext ctx).2 = false ∧ m = "user not found" ∧ s1 = s) ∧
    (∀ (req : protos.Empty) (info : grpc.UnaryServerInfo),
      info.FullMethod ≠ "/RegisterUser/Register" →
      (∃ (c : String) (p : Nat),
        s.validateRequestMetadata ctx =
          (some (ctx.WithValue "client-id" (CtxValue.string c)), none) ∧
        getClientIdFromContext (ctx.WithValue "client-id" (CtxValue.string c)) = (c, true) ∧
        s.get c = some p ∧
        s.UnaryServerInterceptor ctx req info (fun newCtx _ w => w.Deregister newCtx) s =
          s.Deregister (ctx.WithValue "client-id" (CtxValue.string c)) ∧
        (s.HasRoom → ∃ s1,
          s.Deregister (ctx.WithValue "client-id" (CtxValue.string c)) = Result.ret {} s1) ∧
        (¬ s.HasRoom → ∃ s1,
          s.Deregister (ctx.WithValue "client-id" (CtxValue.string c)) = Result.blocked s1)) ∨
      (s.validateRequestMetadata ctx = (none, some "verification failed") ∧
        ∀ (handler : Context → protos.Empty → GrpcBackend → Result GrpcBackend protos.Empty)
          (w : GrpcBackend),
          s.UnaryServerInterceptor ctx req info handler w = Result.panic w)) := by
  refine ⟨deregister_no_client_id s ctx, deregister_err s ctx, ?_⟩
  intro req info hmethod
  by_cases hyes : ∃ md c cs, ctx.incoming = some md ∧ md.Get "client-id" = c :: cs ∧
      (s.get c).isSome = true
  · obtain ⟨md, c, cs, hmd, hget, hact⟩ := hyes
    obtain ⟨p, hp⟩ := Option.isSome_iff_exists.1 hact
    have hval := (validate_eq s ctx).1 md c cs hmd hget hact
    have hctx := getClientId_withValue ctx c
    obtain ⟨e, _, _, h1, h2⟩ :=
      deregister_eq s (ctx.WithValue "client-id" (CtxValue.string c)) c p hctx hp
    refine Or.inl ⟨c, p, hval, hctx, hp, ?_, fun hroom => ⟨_, h1 hroom⟩, h2⟩
    simp [GrpcBackend.UnaryServerInterceptor, hmethod, hval]
  · exact Or.inr ⟨(validate_eq s ctx).2 hyes, fun handler w =>
      unaryServerInterceptor_fault s ctx req info handler w hmethod hyes⟩

/-- C14 amended, at the registry of alice and bob: a scope without a client id carries none,
and `Deregister` returns the error "user not found" with the registry as it was. -/
theorem C14_deregister_not_found_witness :
    (getClientIdFromContext noMetadata).2 = false ∧
    twoUsers.Deregister noMetadata = Result.err "user not found" twoUsers :=
  ⟨by decide, (C14_deregister_not_found twoUsers noMetadata).1 (by decide)⟩

/-! ## The invariants of the registry (C15) -/

theorem active_map_of_same {β : Type} (g : Option String → protos.User → β)
    (es es1 : List Entry)
    (h : es1.map (fun e => (e.key, e.user.proto)) = es.map (fun e => (e.key, e.user.proto))) :
    (GrpcBackend.active { onlineUsers := es1 }).map (fun e => g e.key e.user.proto) =
      (GrpcBackend.active { onlineUsers := es }).map (fun e => g e.key e.user.proto) := by
  induction es generalizing es1 with
  | nil =>
    simp only [List.map_nil, List.map_eq_nil_iff] at h
    subst h
    rfl
  | cons e es ih =>
    cases es1 with
    | nil => simp at h
    | cons e1 es1 =>
      simp only [List.map_cons, List.cons.injEq, Prod.mk.injEq] at h
      obtain ⟨⟨hk, hp⟩, hrest⟩ := h
      have ih1 := ih es1 hrest
      simp only [GrpcBackend.active] at ih1 ⊢
      by_cases hs : e.key.isSome = true
      · rw [List.filter_cons_of_pos (by rw [hk]; exact hs),
          List.filter_cons_of_pos (by exact hs)]
        simp only [List.map_cons, ih1, hk, hp]
      · rw [List.filter_cons_of_neg (by rw [hk]; exact hs),
          List.filter_cons_of_neg (by exact hs)]
        exact ih1

theorem unique_of_same (es es1 : List Entry)
    (h : es1.map (fun e => (e.key, e.user.proto)) = es.map (fun e => (e.key, e.user.proto)))
    (hk : GrpcBackend.UniqueKeys { onlineUsers := es })
    (hn : GrpcBackend.UniqueNames { onlineUsers := es }) :
    GrpcBackend.UniqueKeys { onlineUsers := es1 } ∧
      GrpcBackend.UniqueNames { onlineUsers := es1 } := by
  constructor
  · have := active_map_of_same (fun k _ => k) es es1 h
    unfold GrpcBackend.UniqueKeys
    rw [this]
    exact hk
  · have := active_map_of_same (fun _ u => u.Username) es es1 h
    unfold GrpcBackend.UniqueNames
    rw [this]
    exact hn

theorem active_delete (s : GrpcBackend) (k : String) :
    (s.delete k).active = s.active.filter (fun e => decide (e.key ≠ some k)) := by
  cases s with
  | mk es =>
    simp only [GrpcBackend.delete, GrpcBackend.active]
    induction es with
    | nil => rfl
    | cons e es ih =>
      simp only [List.map_cons]
      by_cases hk : e.key = some k
      · rw [List.filter_cons_of_neg (by simp [hk]), List.filter_cons_of_pos (by simp [hk]),
          List.filter_cons_of_neg (by simp [hk])]
        exact ih
      · cases hk2 : e.key with
        | none =>
          rw [List.filter_cons_of_neg (by simp [hk2]), List.filter_cons_of_neg (by simp [hk2])]
          exact ih
        | some k2 =>
          have hkt : ¬ (some k2 = some k) := by rw [← hk2]; exact hk
          rw [List.filter_cons_of_pos (by simp [hk2, hkt]),
            List.filter_cons_of_pos (by simp [hk2]),
            List.filter_cons_of_pos (by simpa [hk2] using hkt)]
          simp only [hk2, hkt, if_false, ih]

theorem delete_unique (s : GrpcBackend) (k : String) (hk : s.UniqueKeys)
    (hn : s.UniqueNames) : (s.delete k).UniqueKeys ∧ (s.delete k).UniqueNames := by
  unfold GrpcBackend.UniqueKeys GrpcBackend.UniqueNames at *
  rw [active_delete]
  exact ⟨hk.sublist ((List.filter_sublist _).map _), hn.sublist ((List.filter_sublist _).map _)⟩

theorem insert_unique (s : GrpcBackend) (k : String) (user : User) (hk : s.UniqueKeys)
    (hn : s.UniqueNames) (hname : ∀ e ∈ s.active, e.user.proto.Username ≠ user.proto.Username) :
    (s.insert k user).UniqueKeys ∧ (s.insert k user).UniqueNames := by
  obtain ⟨hk1, hn1⟩ := delete_unique s k hk hn
  have hact : (s.insert k user).active =
      (s.delete k).active ++ [{ key := some k, user := user }] := by
    simp [GrpcBackend.insert, GrpcBackend.active, List.filter_append]
  unfold GrpcBackend.UniqueKeys GrpcBackend.UniqueNames at *
  rw [hact, List.map_append, List.map_append]
  constructor
  · refine List.Nodup.append hk1 (by simp) ?_
    intro x hx1 hx2
    simp only [List.map_cons, List.map_nil, List.mem_singleton] at hx2
    subst hx2
    rw [active_delete] at hx1
    obtain ⟨e, he, hek⟩ := List.mem_map.1 hx1
    simp only [List.mem_filter, decide_eq_true_eq] at he
    exact he.2 hek
  · refine List.Nodup.append hn1 (by simp) ?_
    intro x hx1 hx2
    simp only [List.map_cons, List.map_nil, List.mem_singleton] at hx2
    subst hx2
    rw [active_delete] at hx1
    obtain ⟨e, he, hen⟩ := List.mem_map.1 hx1
    simp only [List.mem_filter] at he
    exact hname e he.1 hen

theorem same_of_set (es : List Entry) (p : Nat) (e : Entry) (u : User)
    (he : es[p]? = some e) (hu : u.proto = e.user.proto) :
    (es.set p { e with user := u }).map (fun x => (x.key, x.user.proto)) =
      es.map (fun x => (x.key, x.user.proto)) := by
  induction es generalizing p with
  | nil => rfl
  | cons x es ih =>
    cases p with
    | zero =>
      simp only [List.getElem?_cons_zero, Option.some.injEq] at he
      subst he
      simp [hu]
    | succ p =>
      simp only [List.getElem?_cons_succ] at he
      simp only [List.set_cons_succ, List.map_cons, ih p he]

theorem register_unique (s : GrpcBackend) (request : protos.RegisterRequest) (newId : String)
    (hk : s.UniqueKeys) (hn : s.UniqueNames) :
    (s.Register request newId).state.UniqueKeys ∧
      (s.Register request newId).state.UniqueNames := by
  rw [register_state]
  split
  · exact ⟨hk, hn⟩
  · rename_i ht
    have hname : ∀ e ∈ s.active, e.user.proto.Username ≠ request.Username := by
      intro e he hh
      apply ht
      have hmem : e ∈ s.onlineUsers ∧ e.key.isSome = true := by
        simpa [GrpcBackend.active] using he
      exact (taken_eq_true_iff _ _).2 ⟨e, hmem.1, hmem.2, hh⟩
    obtain ⟨h1, h2⟩ := insert_unique s newId (newUser newId request.Username) hk hn hname
    exact unique_of_same _ _ (register_notify_same _ _) h1 h2

theorem deregister_unique (s : GrpcBackend) (ctx : Context)
    (hk : s.UniqueKeys) (hn : s.UniqueNames) :
    (s.Deregister ctx).state.UniqueKeys ∧ (s.Deregister ctx).state.UniqueNames := by
  rcases deregister_state s ctx with h | ⟨update, h⟩ | ⟨update, k, h⟩
  · rw [h]
    exact ⟨hk, hn⟩
  · rw [h]
    exact unique_of_same _ _ (deregister_notify_same update _) hk hn
  · rw [h]
    obtain ⟨h1, h2⟩ := unique_of_same _ _ (deregister_notify_same update s.onlineUsers) hk hn
    exact delete_unique _ k h1 h2

theorem sendDirectMessage_unique (s : GrpcBackend) (ctx : Context)
    (request : protos.NewMessage) (now : Nat) (hk : s.UniqueKeys) (hn : s.UniqueNames) :
    (s.SendDirectMessage ctx request now).state.UniqueKeys ∧
      (s.SendDirectMessage ctx request now).state.UniqueNames := by
  rcases sendDirectMessage_state s ctx request now with h | ⟨p, e, m, he, h⟩
  · rw [h]
    exact ⟨hk, hn⟩
  · rw [h]
    exact unique_of_same _ _ (same_of_set _ p e _ he rfl) hk hn

/-- The state that an iteration of the loop of `GetUpdates` leaves. -/
theorem iteration_state (clientId : String) (user : Option Nat) (pick : SelectCase)
    (s : GrpcBackend) (server : customServerStream) :
    (GetUpdates.iteration clientId user pick s server).state.1 = s ∨
    ∃ p e u, s.onlineUsers[p]? = some e ∧ u.proto = e.user.proto ∧
      (GetUpdates.iteration clientId user pick s server).state.1 =
        { onlineUsers := s.onlineUsers.set p { e with user := u } } := by
  unfold GetUpdates.iteration
  split
  · exact Or.inl rfl
  · split
    · exact Or.inl rfl
    · rename_i p _ e he
      split
      · exact Or.inl rfl
      · rename_i m u hsel
        exact Or.inr ⟨p, e, u, he, select_proto _ _ _ _ hsel, rfl⟩
      · rename_i c u hsel
        have hu := select_proto _ _ _ _ hsel
        simp only
        split
        · exact Or.inr ⟨p, e, u, he, hu, rfl⟩
        · exact Or.inr ⟨p, e, u, he, hu, rfl⟩

theorem reachable_invariant (s : GrpcBackend) (h : Reachable s) :
    s.WellKeyed ∧ s.UniqueKeys ∧ s.UniqueNames := by
  induction h with
  | init =>
    refine ⟨wellKeyed_new, ?_, ?_⟩
    · simp [GrpcBackend.UniqueKeys, GrpcBackend.active, NewGrpcImplementation]
    · simp [GrpcBackend.UniqueNames, GrpcBackend.active, NewGrpcImplementation]
  | register s request newId _ _ ih =>
    obtain ⟨h1, h2, h3⟩ := ih
    obtain ⟨h4, h5⟩ := register_unique s request newId h2 h3
    exact ⟨register_wellKeyed s request newId h1, h4, h5⟩
  | deregister s ctx _ ih =>
    obtain ⟨h1, h2, h3⟩ := ih
    obtain ⟨h4, h5⟩ := deregister_unique s ctx h2 h3
    exact ⟨deregister_wellKeyed s ctx h1, h4, h5⟩
  | send s ctx request now _ ih =>
    obtain ⟨h1, h2, h3⟩ := ih
    obtain ⟨h4, h5⟩ := sendDirectMessage_unique s ctx request now h2 h3
    exact ⟨sendDirectMessage_wellKeyed s ctx request now h1, h4, h5⟩
  | receive s clientId user pick server _ ih =>
    obtain ⟨h1, h2, h3⟩ := ih
    rcases iteration_state clientId user pick s server with h | ⟨p, e, u, he, hu, h⟩
    · rw [h]
      exact ⟨h1, h2, h3⟩
    · rw [h]
      obtain ⟨h4, h5⟩ := unique_of_same _ _ (same_of_set _ p e u he hu) h2 h3
      exact ⟨set_wellKeyed s p e u he hu h1, h4, h5⟩

theorem uniqueTokens_of (s : GrpcBackend) (hwk : s.WellKeyed) (hk : s.UniqueKeys) :
    s.UniqueTokens := by
  unfold GrpcBackend.UniqueTokens
  unfold GrpcBackend.UniqueKeys at hk
  have heq : s.active.map (fun e => e.key) =
      (s.active.map (fun e => e.user.proto.Id)).map some := by
    rw [List.map_map]
    apply List.map_congr_left
    intro e he
    have hmem : e ∈ s.onlineUsers ∧ e.key.isSome = true := by
      simpa [GrpcBackend.active] using he
    exact hwk e hmem.1 hmem.2
  rw [heq] at hk
  exact List.Nodup.of_map _ hk

/-- C15: in every state that a sequence of `Register` (each with a token never given before),
`Deregister` and `SendDirectMessage` calls reaches from the empty registry, whatever the calls
and however each ends, and also after iterations of `GetUpdates` loops in between: no two
users in the map hold the same display name, no two hold the same token, every entry of the map
is keyed by the token in its own user record, and no two entries have the same key. -/
theorem C15_registry_invariants (s : GrpcBackend) (h : Reachable s) :
    s.UniqueNames ∧ s.UniqueTokens ∧ s.WellKeyed ∧ s.UniqueKeys := by
  obtain ⟨h1, h2, h3⟩ := reachable_invariant s h
  exact ⟨h3, uniqueTokens_of s h1 h2, h1, h2⟩

/-- C15 at the registry that alice and bob registering, then alice deregistering, reach. -/
theorem C15_registry_invariants_witness :
    Reachable aliceLeft ∧
      aliceLeft.UniqueNames ∧ aliceLeft.UniqueTokens ∧ aliceLeft.WellKeyed ∧
      aliceLeft.UniqueKeys := by
  have h1 : Reachable (NewGrpcImplementation.Register { Username := "alice" } "A").state :=
    Reachable.register _ _ _ Reachable.init (by decide)
  have h2 : Reachable
      (GrpcBackend.Register (NewGrpcImplementation.Register { Username := "alice" } "A").state
        { Username := "bob" } "B").state :=
    Reachable.register _ _ _ h1 (by decide)
  have h3 : twoUsers =
      (GrpcBackend.Register (NewGrpcImplementation.Register { Username := "alice" } "A").state
        { Username := "bob" } "B").state := by decide
  have h4 : Reachable aliceLeft := Reachable.deregister twoUsers (scopeOf "A") (h3 ▸ h2)
  exact ⟨h4, C15_registry_invariants aliceLeft h4⟩

end GrpcChat
